import Mathlib

/-!
# Verification of the task-and-flow execution control plane

A shallow embedding, in Lean 4, of the core algorithms of the backend
(`apps/backend/app/main.py`, `apps/backend/app/workflow_hera.py`,
`apps/backend/app/workflow_hera_flow.py`), together with theorems that
settle the spec's claims against the code.

Modelling conventions:
* Python strings are Lean `String`s; Python truthiness of an optional
  string (`None` and `""` are falsy) is `pyTruthy`.
* A workflow status document is modelled by `StatusDoc`: its optional
  top-level `phase` (absent and `""` both behave as falsy in the code,
  so both are modelled by `""`) and its `nodes` mapping as an
  association list.  An entirely empty status dict corresponds to
  `phase = ""` and `nodes = []`; the code's `if not status` guard then
  returns the same value as its `if not phase` guard, so one structure
  suffices.
* Database state is explicit: a task's runs are a list of `RunRec`.
* Calls into the workflow engine are oracles passed as arguments: the
  engine's status answer is `Option StatusDoc` (`none` = the call
  raised), a pod-log fetch is `Except String (List LogEntry)`.
-/

namespace ArgoCore

/-- Python truthiness of an `Optional[str]`: `None` and `""` are falsy. -/
def pyTruthy : Option String → Bool
  | none => false
  | some s => s ≠ ""

/-- A node record inside a workflow status: its `type` and `phase` fields
(`node_info.get("type", "")` / `node_info.get("phase", "")`). -/
structure NodeInfo where
  type : String
  phase : String
deriving DecidableEq, Repr

/-- A workflow status document: top-level `phase` (`""` when absent) and the
`nodes` map as an association list from node id to node record. -/
structure StatusDoc where
  phase : String
  nodes : List (String × NodeInfo)
deriving DecidableEq, Repr

/-- The terminal phases, `["Succeeded", "Failed", "Error"]` in `main.py`. -/
def terminal_phases : List String := ["Succeeded", "Failed", "Error"]

/-- `node_type == "Pod"`: only pod nodes are inspected by the resolver. -/
def isPodNode (n : String × NodeInfo) : Bool :=
  n.2.type = "Pod"

/-- The resolver's `has_running_pod` test for one node:
pod type and `node_phase == "Running"`. -/
def podRunning (n : String × NodeInfo) : Bool :=
  n.2.type = "Pod" && n.2.phase = "Running"

/-- The resolver's `has_succeeded_pod` test for one node. -/
def podSucceeded (n : String × NodeInfo) : Bool :=
  n.2.type = "Pod" && n.2.phase = "Succeeded"

/-- The resolver's `has_pending_pod` test for one node.  In the Python
`if/elif` chain a node only reaches the pending arm when its phase is not
`Running`/`Succeeded`/`Failed`/`Error`, and is then counted when
`node_phase in ["Pending", ""]`. -/
def podPendingFlag (n : String × NodeInfo) : Bool :=
  n.2.type = "Pod" && !(n.2.phase = "Running") && !(n.2.phase = "Succeeded")
    && !(n.2.phase = "Failed") && !(n.2.phase = "Error")
    && (n.2.phase = "Pending" || n.2.phase = "")

/-- The claim's vocabulary for "pod is Pending" (`node_phase ∈ {Pending, ""}`
on a pod node).  Equal to the code's `podPendingFlag` (the leading
disequalities in the `elif` chain are redundant). -/
def podPending (n : String × NodeInfo) : Bool :=
  n.2.type = "Pod" && (n.2.phase = "Pending" || n.2.phase = "")

theorem podPendingFlag_eq_podPending (n : String × NodeInfo) :
    podPendingFlag n = podPending n := by
  unfold podPendingFlag podPending
  by_cases h1 : n.2.phase = "Pending"
  · simp [h1]
  · by_cases h2 : n.2.phase = ""
    · simp [h2]
    · simp [h1, h2]

/-- Embedding of `determine_workflow_phase` (main.py lines 773-851).

The Python loop over `nodes.items()` sets four flags by classifying each
`Pod`-type node's phase through an `if/elif` chain; the flags are exactly
existential checks over the node list (`List.any` of the per-node tests
above).  `status.get("phase")` with the key absent, and an entirely empty
status dict, both take the `return "Pending"` path, modelled by
`phase = ""`. -/
def determine_workflow_phase (status : StatusDoc) : String :=
  if status.phase = "" then "Pending"
  else if terminal_phases.contains status.phase then status.phase
  else if status.phase = "Running" then
    if status.nodes = [] then "Pending"
    else
      let has_running_pod := status.nodes.any podRunning
      let has_succeeded_pod := status.nodes.any podSucceeded
      let has_pending_pod := status.nodes.any podPendingFlag
      if has_running_pod then "Running"
      else if has_succeeded_pod && !has_running_pod && !has_pending_pod then "Running"
      else if has_pending_pod || !(status.nodes.any isPodNode) then "Pending"
      else status.phase
  else
    if status.nodes ≠ [] && status.nodes.any podRunning && status.phase = "Pending" then
      "Running"
    else status.phase

/-- Modelled from the spec (claim C3's case list for a top-level `Running`
status): `Running` if some pod is running; `Running` if no pod running, no
pod pending and at least one succeeded; `Pending` if there are *only*
pending pods or zero pod-type nodes; the top-level phase otherwise. -/
def resolver_spec_words (status : StatusDoc) : String :=
  if status.nodes.any podRunning then "Running"
  else if !(status.nodes.any podPending) && status.nodes.any podSucceeded then "Running"
  else if (status.nodes.all fun n => !(isPodNode n) || podPending n)
            && status.nodes.any isPodNode
          || !(status.nodes.any isPodNode) then "Pending"
  else status.phase

end ArgoCore

namespace ArgoCore

/-- The status document used to refute claim C2: top-level phase `Running`,
one pod node that already succeeded, no running pod. -/
def statusSucceededPod : StatusDoc :=
  ⟨"Running", [("wf-node-1", ⟨"Pod", "Succeeded"⟩)]⟩

/-- Status with one pending pod and one failed pod under top-level
`Running`; refutes claim C3's case list. -/
def statusPendingFailedPods : StatusDoc :=
  ⟨"Running", [("wf-node-1", ⟨"Pod", "Pending"⟩), ("wf-node-2", ⟨"Pod", "Failed"⟩)]⟩

/-- C2, counterexample: in `statusSucceededPod` no pod-type node has phase
`Running`, yet `determine_workflow_phase` returns `"Running"` (the
transitional rule at main.py lines 822-827). -/
theorem C2_resolver_running_without_live_pod_cex :
    (∀ n ∈ statusSucceededPod.nodes, podRunning n = false) ∧
    determine_workflow_phase statusSucceededPod = "Running" := by
  constructor
  · decide
  · rfl

/-- C2, amended: the resolver can report `"Running"` with no running pod only
when the top-level phase is itself `"Running"`.  Whenever the top-level phase
is not `"Running"` and no pod-type node has phase `Running`, the output is
never `"Running"`. -/
theorem C2_resolver_no_running_amended (S : StatusDoc)
    (h1 : S.phase ≠ "Running")
    (h2 : ∀ n ∈ S.nodes, podRunning n = false) :
    determine_workflow_phase S ≠ "Running" := by
  have hrun : S.nodes.any podRunning = false := by
    simp only [List.any_eq_false]
    intro x hx
    simp [h2 x hx]
  simp [determine_workflow_phase, hrun, h1]
  split_ifs <;> simp [h1]

/-- C2, witness for the amended theorem at a concrete status. -/
theorem C2_resolver_no_running_amended_witness :
    determine_workflow_phase ⟨"Pending", [("n", ⟨"Pod", "Pending"⟩)]⟩ ≠ "Running" :=
  C2_resolver_no_running_amended ⟨"Pending", [("n", ⟨"Pod", "Pending"⟩)]⟩
    (by decide) (by decide)

/-- C3, counterexample: for a top-level `Running` status with one pending and
one failed pod, the claim's case list (`resolver_spec_words`) yields the
top-level phase `"Running"` (the pods are not *only* pending), but the code
returns `"Pending"` (it tests `has_pending_pod`, i.e. *some* pending pod,
main.py line 829). -/
theorem C3_resolver_case_list_cex :
    statusPendingFailedPods.phase = "Running" ∧
    resolver_spec_words statusPendingFailedPods = "Running" ∧
    determine_workflow_phase statusPendingFailedPods = "Pending" := by
  refine ⟨rfl, ?_, ?_⟩ <;> rfl

/-- C3, amended: for a status whose top-level phase is `"Running"`, the
resolver returns `"Running"` if some pod-type node is running; `"Running"` if
no pod is running, no pod is pending and at least one pod succeeded;
`"Pending"` if *at least one* pod is pending (not: only pending pods) or
there are zero pod-type nodes; and the top-level phase (`"Running"`)
otherwise.  An empty status document resolves to `"Pending"`. -/
theorem C3_resolver_running_amended (S : StatusDoc) (hR : S.phase = "Running") :
    ((∃ n ∈ S.nodes, podRunning n = true) →
        determine_workflow_phase S = "Running") ∧
    ((∀ n ∈ S.nodes, podRunning n = false) → (∀ n ∈ S.nodes, podPending n = false) →
      (∃ n ∈ S.nodes, podSucceeded n = true) →
        determine_workflow_phase S = "Running") ∧
    ((∀ n ∈ S.nodes, podRunning n = false) →
      ((∃ n ∈ S.nodes, podPending n = true) ∨ (∀ n ∈ S.nodes, isPodNode n = false)) →
        determine_workflow_phase S = "Pending") ∧
    ((∀ n ∈ S.nodes, podRunning n = false) → (∀ n ∈ S.nodes, podPending n = false) →
      (∀ n ∈ S.nodes, podSucceeded n = false) → (∃ n ∈ S.nodes, isPodNode n = true) →
        determine_workflow_phase S = "Running") ∧
    determine_workflow_phase ⟨"", []⟩ = "Pending" := by
  obtain ⟨ph, nodes⟩ := S
  simp only at hR
  subst hR
  have hpendflag : ∀ h : (∀ n ∈ nodes, podPending n = false),
      nodes.any podPendingFlag = false := by
    intro h
    simp only [List.any_eq_false]
    intro x hx
    simp [podPendingFlag_eq_podPending, h x hx]
  refine ⟨?_, ?_, ?_, ?_, rfl⟩
  · rintro ⟨n, hn, hpr⟩
    have hne : nodes ≠ [] := by rintro rfl; exact absurd hn (List.not_mem_nil n)
    have hany : nodes.any podRunning = true := List.any_eq_true.mpr ⟨n, hn, hpr⟩
    simp [determine_workflow_phase, hne, hany, terminal_phases]
  · intro hnr hnp hs
    obtain ⟨m, hm, hms⟩ := hs
    have hne : nodes ≠ [] := by rintro rfl; exact absurd hm (List.not_mem_nil m)
    have hanyr : nodes.any podRunning = false := by
      simp only [List.any_eq_false]; intro x hx; simp [hnr x hx]
    have hanys : nodes.any podSucceeded = true := List.any_eq_true.mpr ⟨m, hm, hms⟩
    simp [determine_workflow_phase, hne, hanyr, hanys, hpendflag hnp, terminal_phases]
  · intro hnr hpend
    rcases Decidable.em (nodes = []) with hemp | hne
    · simp [determine_workflow_phase, hemp, terminal_phases]
    have hanyr : nodes.any podRunning = false := by
      simp only [List.any_eq_false]; intro x hx; simp [hnr x hx]
    rcases hpend with ⟨m, hm, hmp⟩ | hnone
    · have hanyp : nodes.any podPendingFlag = true :=
        List.any_eq_true.mpr ⟨m, hm, by simp [podPendingFlag_eq_podPending, hmp]⟩
      simp [determine_workflow_phase, hne, hanyr, hanyp, terminal_phases]
    · have hanyt : nodes.any isPodNode = false := by
        simp only [List.any_eq_false]; intro x hx; simp [hnone x hx]
      have hpodfalse : ∀ x ∈ nodes, x.2.type ≠ "Pod" := by
        intro x hx
        have := hnone x hx
        simpa [isPodNode] using this
      have hanyp : nodes.any podPendingFlag = false := by
        simp only [List.any_eq_false]; intro x hx
        simp [podPendingFlag, hpodfalse x hx]
      have hanys : nodes.any podSucceeded = false := by
        simp only [List.any_eq_false]; intro x hx
        simp [podSucceeded, hpodfalse x hx]
      simp [determine_workflow_phase, hne, hanyr, hanyt, hanyp, hanys, terminal_phases]
  · intro hnr hnp hns hpod
    obtain ⟨m, hm, hmt⟩ := hpod
    have hne : nodes ≠ [] := by rintro rfl; exact absurd hm (List.not_mem_nil m)
    have hanyr : nodes.any podRunning = false := by
      simp only [List.any_eq_false]; intro x hx; simp [hnr x hx]
    have hanys : nodes.any podSucceeded = false := by
      simp only [List.any_eq_false]; intro x hx; simp [hns x hx]
    have hanyt : nodes.any isPodNode = true := List.any_eq_true.mpr ⟨m, hm, hmt⟩
    simp [determine_workflow_phase, hne, hanyr, hanys, hanyt, hpendflag hnp, terminal_phases]

/-- C3, witness for the amended theorem: one concrete status per case. -/
theorem C3_resolver_running_amended_witness :
    determine_workflow_phase ⟨"Running", [("a", ⟨"Pod", "Running"⟩)]⟩ = "Running" ∧
    determine_workflow_phase ⟨"Running", [("a", ⟨"Pod", "Succeeded"⟩)]⟩ = "Running" ∧
    determine_workflow_phase ⟨"Running", [("a", ⟨"Pod", "Pending"⟩)]⟩ = "Pending" ∧
    determine_workflow_phase ⟨"Running", [("a", ⟨"Pod", "Failed"⟩)]⟩ = "Running" := by
  refine ⟨?_, ?_, ?_, ?_⟩
  · exact (C3_resolver_running_amended ⟨"Running", [("a", ⟨"Pod", "Running"⟩)]⟩ rfl).1
      ⟨("a", ⟨"Pod", "Running"⟩), by decide, by decide⟩
  · exact (C3_resolver_running_amended ⟨"Running", [("a", ⟨"Pod", "Succeeded"⟩)]⟩ rfl).2.1
      (by decide) (by decide) ⟨("a", ⟨"Pod", "Succeeded"⟩), by decide, by decide⟩
  · exact (C3_resolver_running_amended ⟨"Running", [("a", ⟨"Pod", "Pending"⟩)]⟩ rfl).2.2.1
      (by decide) (Or.inl ⟨("a", ⟨"Pod", "Pending"⟩), by decide, by decide⟩)
  · exact (C3_resolver_running_amended ⟨"Running", [("a", ⟨"Pod", "Failed"⟩)]⟩ rfl).2.2.2.1
      (by decide) (by decide) (by decide) ⟨("a", ⟨"Pod", "Failed"⟩), by decide, by decide⟩

/-- C9: the resolver is a total function of the status document whose output
is always the document's own top-level phase, `"Pending"`, or `"Running"`;
consequently a terminal output always equals the top-level phase. -/
theorem C9_resolver_output_range (S : StatusDoc) :
    (determine_workflow_phase S = S.phase ∨
     determine_workflow_phase S = "Pending" ∨
     determine_workflow_phase S = "Running") ∧
    (terminal_phases.contains (determine_workflow_phase S) = true →
      determine_workflow_phase S = S.phase) := by
  have hrange : determine_workflow_phase S = S.phase ∨
      determine_workflow_phase S = "Pending" ∨
      determine_workflow_phase S = "Running" := by
    simp only [determine_workflow_phase]
    split_ifs <;> simp
  refine ⟨hrange, ?_⟩
  intro hterm
  rcases hrange with h | h | h
  · exact h
  · rw [h] at hterm; simp [terminal_phases] at hterm
  · rw [h] at hterm; simp [terminal_phases] at hterm

/-- C9, witness: the terminal-output clause at a concrete terminal status. -/
theorem C9_resolver_output_range_witness :
    determine_workflow_phase ⟨"Succeeded", []⟩ = "Succeeded" :=
  (C9_resolver_output_range ⟨"Succeeded", []⟩).2 (by decide)

end ArgoCore

namespace ArgoCore

/-- A stored run row (`task_runs` / `flow_runs`): the columns the modelled
operations read.  `id` is the primary key, `run_number` the per-task
counter, `phase` the stored phase, `workflow_id` the engine's name for the
submitted workflow. -/
structure RunRec where
  id : Nat
  run_number : Nat
  phase : String
  workflow_id : String
deriving DecidableEq, Repr

/-- `SELECT ... ORDER BY run_number DESC LIMIT 1` over a task's runs: the
run with the maximal `run_number` (on a tie — which the run-numbering
invariant rules out — the earlier row). -/
def latest_run : List RunRec → Option RunRec
  | [] => none
  | r :: rs =>
    match latest_run rs with
    | none => some r
    | some m => if m.run_number > r.run_number then some m else some r

/-- `max(run_number)` over a list of runs, `0` when there are none. -/
def maxRunNumber (runs : List RunRec) : Nat :=
  runs.foldr (fun r acc => max r.run_number acc) 0

theorem latest_run_eq_none_iff (runs : List RunRec) :
    latest_run runs = none ↔ runs = [] := by
  induction runs with
  | nil => simp [latest_run]
  | cons r rs ih =>
    simp only [latest_run]
    cases h : latest_run rs with
    | none => simp
    | some m =>
      constructor
      · intro hc
        by_cases hgt : m.run_number > r.run_number <;> simp [hgt] at hc
      · intro hc; exact absurd hc (by simp)

theorem latest_run_mem {runs : List RunRec} {m : RunRec}
    (h : latest_run runs = some m) : m ∈ runs := by
  induction runs with
  | nil => simp [latest_run] at h
  | cons r rs ih =>
    simp only [latest_run] at h
    cases hrec : latest_run rs with
    | none => rw [hrec] at h; simp at h; simp [h]
    | some m' =>
      rw [hrec] at h
      by_cases hgt : m'.run_number > r.run_number
      · simp [hgt] at h
        subst h
        exact List.mem_cons_of_mem r (ih hrec)
      · simp [hgt] at h
        simp [h]

theorem latest_run_ge {runs : List RunRec} {m : RunRec}
    (h : latest_run runs = some m) : ∀ r ∈ runs, r.run_number ≤ m.run_number := by
  induction runs generalizing m with
  | nil => simp
  | cons r rs ih =>
    simp only [latest_run] at h
    cases hrec : latest_run rs with
    | none =>
      rw [hrec] at h
      simp at h
      subst h
      intro x hx
      rcases List.mem_cons.mp hx with hx | hx
      · simp [hx]
      · exact absurd hrec (by simp [latest_run_eq_none_iff,
          (List.ne_nil_of_mem hx)])
    | some m' =>
      rw [hrec] at h
      by_cases hgt : m'.run_number > r.run_number
      · simp [hgt] at h
        subst h
        intro x hx
        rcases List.mem_cons.mp hx with hx | hx
        · subst hx; exact Nat.le_of_lt hgt
        · exact ih hrec x hx
      · simp [hgt] at h
        subst h
        intro x hx
        rcases List.mem_cons.mp hx with hx | hx
        · simp [hx]
        · exact Nat.le_trans (ih hrec x hx) (Nat.le_of_not_lt hgt)

theorem maxRunNumber_ge {runs : List RunRec} :
    ∀ r ∈ runs, r.run_number ≤ maxRunNumber runs := by
  induction runs with
  | nil => simp
  | cons r rs ih =>
    intro x hx
    rcases List.mem_cons.mp hx with hx | hx
    · subst hx; exact Nat.le_max_left _ _
    · exact Nat.le_trans (ih x hx) (Nat.le_max_right _ _)

theorem maxRunNumber_le {runs : List RunRec} {k : Nat}
    (h : ∀ r ∈ runs, r.run_number ≤ k) : maxRunNumber runs ≤ k := by
  induction runs with
  | nil => simp [maxRunNumber]
  | cons r rs ih =>
    simp only [maxRunNumber, List.foldr_cons]
    have h1 : r.run_number ≤ k := h r (by simp)
    have h2 : maxRunNumber rs ≤ k := ih fun x hx => h x (List.mem_cons_of_mem r hx)
    exact Nat.max_le.mpr ⟨h1, h2⟩

/-- The `ORDER BY run_number DESC LIMIT 1` row carries `max(run_number)`. -/
theorem latest_run_number_eq_max {runs : List RunRec} {m : RunRec}
    (h : latest_run runs = some m) : m.run_number = maxRunNumber runs :=
  Nat.le_antisymm (maxRunNumber_ge m (latest_run_mem h))
    (maxRunNumber_le (latest_run_ge h))

end ArgoCore

namespace ArgoCore

/-- An edge of a flow definition (`edge.get("source")` / `edge.get("target")`;
both keys are always present as strings in stored definitions, empty strings
are falsy). -/
structure EdgeDef where
  source : String
  target : String
deriving DecidableEq, Repr

/-- A flow definition as consumed by `create_flow_workflow_with_hera`
(workflow_hera_flow.py lines 532-534): the declared step ids
(`step["id"]` of each element of `definition["steps"]`) and the edge list. -/
structure FlowDefinition where
  steps : List String
  edges : List EdgeDef
deriving DecidableEq, Repr

/-- `step_ids = {step["id"] for step in steps}` (a Python set; modelled as
the deduplicated id list — set-iteration order is immaterial, see
`detect_cycle_iff_hasCycle`). -/
def step_ids (d : FlowDefinition) : List String := d.steps.dedup

/-- The `if source and target` truthiness guard on an edge. -/
def valid_edge (e : EdgeDef) : Bool := e.source ≠ "" && e.target ≠ ""

/-- `dependencies_map` (workflow_hera_flow.py lines 545-556): keys are the
declared step ids (defaulting to `[]` elsewhere, as `dict.get(step_id, [])`
does); for each edge passing the truthiness guard, its `source` is appended
to the entry of its `target`. -/
def dependencies_map (d : FlowDefinition) (t : String) : List String :=
  if t ∈ step_ids d then
    (d.edges.filter fun e => valid_edge e && e.target = t).map (·.source)
  else []

/-- `has_cycle(step_id, visited, rec_stack)` (workflow_hera_flow.py lines
559-571).  `visited` and `rec_stack` are threaded explicitly: Python mutates
both sets in place, but `rec_stack` obeys a stack discipline (each frame
removes exactly the id it added before returning `False`), so passing it
down immutably is equivalent; `visited` only grows and is returned.  The
`for dep in ...` loop with its early `return True` is a fold whose `true`
state is absorbing.  `fuel` bounds the recursion depth (Python recursion is
bounded by the number of unvisited step ids; `hspec_all` shows the fuel
used by `detect_cycle` is never exhausted). -/
def has_cycle_dfs (adj : String → List String) : Nat → String →
    List String → List String → Bool × List String
  | 0, _, visited, _ => (true, visited)
  | fuel + 1, v, visited, stack =>
    (adj v).foldl
      (fun acc d =>
        match acc with
        | (true, vis) => (true, vis)
        | (false, vis) =>
          if d ∉ vis then has_cycle_dfs adj fuel d vis (v :: stack)
          else if d ∈ v :: stack then (true, vis)
          else (false, vis))
      (false, v :: visited)

/-- The `for dep in dependencies_map.get(step_id, [])` loop inside
`has_cycle`, on the remaining dependency list `ds` of the node `stack.head`
(so `has_cycle_dfs (fuel+1) v` is this loop on `adj v` with `v` pushed onto
`visited` and the stack). -/
def dfs_deps (adj : String → List String) (fuel : Nat) (ds : List String)
    (visited stack : List String) : Bool × List String :=
  ds.foldl
    (fun acc d =>
      match acc with
      | (true, vis) => (true, vis)
      | (false, vis) =>
        if d ∉ vis then has_cycle_dfs adj fuel d vis stack
        else if d ∈ stack then (true, vis)
        else (false, vis))
    (false, visited)

theorem has_cycle_dfs_succ (adj : String → List String) (fuel : Nat) (v : String)
    (visited stack : List String) :
    has_cycle_dfs adj (fuel + 1) v visited stack
      = dfs_deps adj fuel (adj v) (v :: visited) (v :: stack) := rfl

theorem dfs_deps_true_absorb (adj : String → List String) (fuel : Nat)
    (ds : List String) (vis stack : List String) :
    ds.foldl
      (fun acc d =>
        match acc with
        | (true, vis) => (true, vis)
        | (false, vis) =>
          if d ∉ vis then has_cycle_dfs adj fuel d vis stack
          else if d ∈ stack then (true, vis)
          else (false, vis))
      (true, vis) = (true, vis) := by
  induction ds with
  | nil => rfl
  | cons d ds ih => simpa [List.foldl_cons] using ih

theorem dfs_deps_nil (adj : String → List String) (fuel : Nat)
    (visited stack : List String) :
    dfs_deps adj fuel [] visited stack = (false, visited) := rfl

theorem dfs_deps_cons_unvisited (adj : String → List String) (fuel : Nat)
    {d : String} {visited : List String} (ds : List String) (stack : List String)
    (hd : d ∉ visited) :
    dfs_deps adj fuel (d :: ds) visited stack
      = match has_cycle_dfs adj fuel d visited stack with
        | (true, vis') => (true, vis')
        | (false, vis') => dfs_deps adj fuel ds vis' stack := by
  unfold dfs_deps
  rw [List.foldl_cons]
  simp only [hd, not_false_eq_true, if_true]
  rcases has_cycle_dfs adj fuel d visited stack with ⟨b, vis'⟩
  cases b
  · rfl
  · exact dfs_deps_true_absorb adj fuel ds vis' stack

theorem dfs_deps_cons_stack (adj : String → List String) (fuel : Nat)
    {d : String} {visited stack : List String} (ds : List String)
    (hd : d ∈ visited) (hs : d ∈ stack) :
    dfs_deps adj fuel (d :: ds) visited stack = (true, visited) := by
  unfold dfs_deps
  rw [List.foldl_cons]
  simp only [hd, hs, not_true_eq_false, if_false, if_true]
  exact dfs_deps_true_absorb adj fuel ds visited stack

theorem dfs_deps_cons_skip (adj : String → List String) (fuel : Nat)
    {d : String} {visited stack : List String} (ds : List String)
    (hd : d ∈ visited) (hs : d ∉ stack) :
    dfs_deps adj fuel (d :: ds) visited stack = dfs_deps adj fuel ds visited stack := by
  unfold dfs_deps
  rw [List.foldl_cons]
  simp only [hd, hs, not_true_eq_false, if_false]

/-- The top-level loop `for step_id in step_ids: if step_id not in visited:
if has_cycle(step_id, visited, set()): raise` (lines 573-580). -/
def cycle_roots (adj : String → List String) (fuel : Nat) :
    List String → List String → Bool
  | [], _ => false
  | s :: ss, visited =>
    if s ∉ visited then
      match has_cycle_dfs adj fuel s visited [] with
      | (true, _) => true
      | (false, visited') => cycle_roots adj fuel ss visited'
    else cycle_roots adj fuel ss visited

/-- Whole-definition cycle detection as run by the synthesizer. -/
def detect_cycle (d : FlowDefinition) : Bool :=
  cycle_roots (dependencies_map d) ((step_ids d).length + 1) (step_ids d) []

/-- The validation errors the synthesizer can raise before submitting. -/
inductive FlowError where
  | pvcNotBound
  | noSteps
  | invalidEdge (source target : String)
  | cyclic
deriving DecidableEq, Repr

/-- The validation portion of `create_flow_workflow_with_hera`
(workflow_hera_flow.py lines 536-580): reject when `steps` is empty; reject
the first truthiness-passing edge with an undeclared endpoint; reject when
the DFS detects a cycle. -/
def validate_flow_definition (d : FlowDefinition) : Except FlowError Unit :=
  if d.steps = [] then .error .noSteps
  else
    match d.edges.find? (fun e => valid_edge e &&
        !(decide (e.source ∈ step_ids d) && decide (e.target ∈ step_ids d))) with
    | some e => .error (.invalidEdge e.source e.target)
    | none => if detect_cycle d then .error .cyclic else .ok ()

/-- `create_flow_workflow_with_hera` around its validation: the PVC
precondition, the validation above, then submission (`.2` is whether a
workflow was submitted to the engine; `wfName` is the engine-generated
name).  Validation errors are raised before
`api_instance.create_namespaced_custom_object` is reached. -/
def create_flow_workflow_with_hera (pvcBound : Bool) (d : FlowDefinition)
    (wfName : String) : Except FlowError String × Bool :=
  if !pvcBound then (.error .pvcNotBound, false)
  else
    match validate_flow_definition d with
    | .error err => (.error err, false)
    | .ok () => (.ok wfName, true)

/-- The step relation of the dependency graph explored by the DFS:
`adjRel adj a b` when `b` is one of `a`'s recorded dependencies. -/
def adjRel (adj : String → List String) (a b : String) : Prop := b ∈ adj a

instance (adj : String → List String) (a b : String) : Decidable (adjRel adj a b) := by
  unfold adjRel; infer_instance

/-- The dependency graph contains a (directed) cycle. -/
def HasCycleGraph (adj : String → List String) : Prop :=
  ∃ v, Relation.TransGen (adjRel adj) v v

/-- `v` cannot reach any vertex that lies on a cycle. -/
def Good (adj : String → List String) (v : String) : Prop :=
  ∀ w, Relation.ReflTransGen (adjRel adj) v w → ¬ Relation.TransGen (adjRel adj) w w

/-- The recursion stack is a path: each element has an edge to the one
pushed directly above it. -/
def chainProp (adj : String → List String) : List String → Prop
  | [] => True
  | [_] => True
  | a :: b :: t => adjRel adj b a ∧ chainProp adj (b :: t)

/-- Number of universe vertices not yet visited (the DFS depth bound). -/
def UC (univ visited : List String) : Nat :=
  (univ.toFinset \ visited.toFinset).card

theorem UC_mono {univ visited visited' : List String} (h : visited ⊆ visited') :
    UC univ visited' ≤ UC univ visited := by
  apply Finset.card_le_card
  apply Finset.sdiff_subset_sdiff (Finset.Subset.refl _)
  intro x hx
  simp only [List.mem_toFinset] at hx ⊢
  exact h hx

theorem UC_cons_lt {univ visited : List String} {v : String}
    (hu : v ∈ univ) (hv : v ∉ visited) :
    UC univ (v :: visited) < UC univ visited := by
  have hmem : v ∈ univ.toFinset \ visited.toFinset := by
    simp [List.mem_toFinset, hu, hv]
  have : (v :: visited).toFinset = insert v visited.toFinset := by simp
  unfold UC
  rw [this, Finset.sdiff_insert]
  exact Finset.card_lt_card (Finset.erase_ssubset hmem)

theorem UC_pos {univ visited : List String} {v : String}
    (hu : v ∈ univ) (hv : v ∉ visited) : 1 ≤ UC univ visited := by
  have hmem : v ∈ univ.toFinset \ visited.toFinset := by
    simp [List.mem_toFinset, hu, hv]
  exact Finset.card_pos.mpr ⟨v, hmem⟩

/-- A vertex all of whose successors are `Good` is itself `Good`. -/
theorem good_of_deps {adj : String → List String} {v : String}
    (h : ∀ d ∈ adj v, Good adj d) : Good adj v := by
  intro w hvw hcyc
  rcases Relation.ReflTransGen.cases_head hvw with heq | ⟨c, hvc, hcw⟩
  · subst heq
    rcases (Relation.TransGen.head'_iff.mp hcyc) with ⟨c, hvc, hcv⟩
    exact h c hvc v hcv hcyc
  · exact h c hvc w hcw hcyc

/-- Every element of a chain reaches (or is) its top element. -/
theorem chain_reach {adj : String → List String} :
    ∀ (a : String) (t : List String), chainProp adj (a :: t) →
      ∀ d ∈ a :: t, d = a ∨ Relation.TransGen (adjRel adj) d a := by
  intro a t
  induction t generalizing a with
  | nil =>
    intro _ d hd
    left
    simpa using hd
  | cons b t' ih =>
    intro hc d hd
    obtain ⟨hba, hbt⟩ := hc
    rcases List.mem_cons.mp hd with rfl | hd'
    · exact Or.inl rfl
    · rcases ih b hbt d hd' with rfl | htr
      · exact Or.inr (Relation.TransGen.single hba)
      · exact Or.inr (htr.tail hba)

/-- Specification of `has_cycle_dfs` at a given fuel: under the DFS
invariants, a `true` result exhibits a cycle, and a `false` result extends
`visited` with vertices that are all `Good` off the stack. -/
def HspecP (adj : String → List String) (univ : List String) (fuel : Nat) : Prop :=
  ∀ v visited stack,
    v ∈ univ → v ∉ visited → stack ⊆ visited →
    UC univ visited ≤ fuel →
    chainProp adj (v :: stack) →
    (∀ u ∈ visited, u ∉ stack → Good adj u) →
    ((has_cycle_dfs adj fuel v visited stack).1 = true → HasCycleGraph adj) ∧
    ((has_cycle_dfs adj fuel v visited stack).1 = false →
      visited ⊆ (has_cycle_dfs adj fuel v visited stack).2 ∧
      v ∈ (has_cycle_dfs adj fuel v visited stack).2 ∧
      (∀ u ∈ (has_cycle_dfs adj fuel v visited stack).2, u ∉ stack → Good adj u))

/-- Specification of `dfs_deps` (the dependency loop of the node `w` on top
of the stack). -/
def DspecP (adj : String → List String) (univ : List String) (fuel : Nat) : Prop :=
  ∀ w stack₀ ds, ∀ visited : List String,
    ds ⊆ adj w →
    w ∈ visited → stack₀ ⊆ visited →
    UC univ visited ≤ fuel →
    chainProp adj (w :: stack₀) →
    (∀ u ∈ visited, u ∉ (w :: stack₀) → Good adj u) →
    ((dfs_deps adj fuel ds visited (w :: stack₀)).1 = true → HasCycleGraph adj) ∧
    ((dfs_deps adj fuel ds visited (w :: stack₀)).1 = false →
      visited ⊆ (dfs_deps adj fuel ds visited (w :: stack₀)).2 ∧
      (∀ u ∈ (dfs_deps adj fuel ds visited (w :: stack₀)).2,
          u ∉ (w :: stack₀) → Good adj u) ∧
      (∀ x ∈ ds, Good adj x))

theorem hspec_zero (adj : String → List String) (univ : List String) :
    HspecP adj univ 0 := by
  intro v visited stack hu hv _ hfuel _ _
  have h1 := UC_pos hu hv
  exact absurd hfuel (by omega)

theorem dspec_of_hspec (adj : String → List String) (univ : List String)
    (Hadj : ∀ a b, b ∈ adj a → b ∈ univ) (fuel : Nat)
    (H : HspecP adj univ fuel) : DspecP adj univ fuel := by
  intro w stack₀ ds
  induction ds with
  | nil =>
    intro visited _ _ _ _ _ hgood
    rw [dfs_deps_nil]
    exact ⟨fun h => by simp at h, fun _ => ⟨List.Subset.refl _, hgood, by simp⟩⟩
  | cons d ds' ih =>
    intro visited hds hw hst hfuel hchain hgood
    have hdw : d ∈ adj w := hds (by simp)
    have hds' : ds' ⊆ adj w := fun x hx => hds (List.mem_cons_of_mem d hx)
    by_cases hdv : d ∈ visited
    · by_cases hdstack : d ∈ (w :: stack₀)
      · have hres : dfs_deps adj fuel (d :: ds') visited (w :: stack₀) = (true, visited) :=
          dfs_deps_cons_stack adj fuel ds' hdv hdstack
        rw [hres]
        constructor
        · intro _
          rcases chain_reach w stack₀ hchain d hdstack with rfl | htr
          · exact ⟨d, Relation.TransGen.single hdw⟩
          · exact ⟨d, htr.tail hdw⟩
        · intro hfalse; simp at hfalse
      · have hres : dfs_deps adj fuel (d :: ds') visited (w :: stack₀)
            = dfs_deps adj fuel ds' visited (w :: stack₀) :=
          dfs_deps_cons_skip adj fuel ds' hdv hdstack
        have IH := ih visited hds' hw hst hfuel hchain hgood
        rw [hres]
        refine ⟨IH.1, fun hf => ?_⟩
        obtain ⟨hsub, hgood', hdsall⟩ := IH.2 hf
        refine ⟨hsub, hgood', ?_⟩
        intro x hx
        rcases List.mem_cons.mp hx with rfl | hx'
        · exact hgood x hdv hdstack
        · exact hdsall x hx'
    · have hdu : d ∈ univ := Hadj w d hdw
      have hchain' : chainProp adj (d :: w :: stack₀) := ⟨hdw, hchain⟩
      have hstack' : (w :: stack₀) ⊆ visited := List.cons_subset.mpr ⟨hw, hst⟩
      have HS := H d visited (w :: stack₀) hdu hdv hstack' hfuel hchain' hgood
      rcases hres : has_cycle_dfs adj fuel d visited (w :: stack₀) with ⟨b, visited'⟩
      rw [hres] at HS
      cases b with
      | true =>
        have heq : dfs_deps adj fuel (d :: ds') visited (w :: stack₀) = (true, visited') := by
          rw [dfs_deps_cons_unvisited adj fuel ds' (w :: stack₀) hdv, hres]
        rw [heq]
        exact ⟨fun _ => HS.1 rfl, fun hf => by simp at hf⟩
      | false =>
        obtain ⟨hsub, hdmem, hgood''⟩ := HS.2 rfl
        have heq : dfs_deps adj fuel (d :: ds') visited (w :: stack₀)
            = dfs_deps adj fuel ds' visited' (w :: stack₀) := by
          rw [dfs_deps_cons_unvisited adj fuel ds' (w :: stack₀) hdv, hres]
        rw [heq]
        have IH := ih visited' hds' (hsub hw) (fun x hx => hsub (hst hx))
          (le_trans (UC_mono hsub) hfuel) hchain hgood''
        refine ⟨IH.1, fun hf => ?_⟩
        obtain ⟨hsub', hgood''', hdsall⟩ := IH.2 hf
        refine ⟨List.Subset.trans hsub hsub', hgood''', ?_⟩
        intro x hx
        rcases List.mem_cons.mp hx with rfl | hx'
        · have hxnotstack : x ∉ (w :: stack₀) := fun hc => hdv (hstack' hc)
          exact hgood'' x hdmem hxnotstack
        · exact hdsall x hx'

theorem hspec_succ (adj : String → List String) (univ : List String)
    (f : Nat) (D : DspecP adj univ f) : HspecP adj univ (f + 1) := by
  intro v visited stack hu hv hstack hfuel hchain hgood
  have heq : has_cycle_dfs adj (f + 1) v visited stack
      = dfs_deps adj f (adj v) (v :: visited) (v :: stack) :=
    has_cycle_dfs_succ adj f v visited stack
  have hw : v ∈ v :: visited := by simp
  have hst : stack ⊆ v :: visited := fun x hx => List.mem_cons_of_mem v (hstack hx)
  have hfuel' : UC univ (v :: visited) ≤ f := by
    have h1 : UC univ (v :: visited) < UC univ visited := UC_cons_lt hu hv
    omega
  have hgood' : ∀ u ∈ v :: visited, u ∉ (v :: stack) → Good adj u := by
    intro u hu' hustack
    rcases List.mem_cons.mp hu' with rfl | hu''
    · exact absurd (by simp : u ∈ u :: stack) hustack
    · exact hgood u hu'' fun hx => hustack (List.mem_cons_of_mem v hx)
  have HD := D v stack (adj v) (v :: visited) (List.Subset.refl _) hw hst hfuel' hchain hgood'
  rw [heq]
  refine ⟨HD.1, fun hf => ?_⟩
  obtain ⟨hsub, hgood'', hdeps⟩ := HD.2 hf
  have hvgood : Good adj v := good_of_deps hdeps
  refine ⟨fun x hx => hsub (List.mem_cons_of_mem v hx), hsub hw, ?_⟩
  intro u hu' hustack
  by_cases huv : u = v
  · subst huv; exact hvgood
  · exact hgood'' u hu' (by simp [huv, hustack])

theorem hspec_all (adj : String → List String) (univ : List String)
    (Hadj : ∀ a b, b ∈ adj a → b ∈ univ) :
    ∀ fuel, HspecP adj univ fuel := by
  intro fuel
  induction fuel with
  | zero => exact hspec_zero adj univ
  | succ f ihf =>
    exact hspec_succ adj univ f (dspec_of_hspec adj univ Hadj f ihf)

theorem cycle_roots_spec (adj : String → List String) (univ : List String)
    (Hadj : ∀ a b, b ∈ adj a → b ∈ univ) (fuel : Nat) :
    ∀ (roots : List String), ∀ visited : List String, roots ⊆ univ →
      UC univ visited ≤ fuel →
      (∀ u ∈ visited, Good adj u) →
      (cycle_roots adj fuel roots visited = true → HasCycleGraph adj) ∧
      (cycle_roots adj fuel roots visited = false → ∀ s ∈ roots, Good adj s) := by
  have H := hspec_all adj univ Hadj fuel
  intro roots
  induction roots with
  | nil =>
    intro visited _ _ _
    exact ⟨fun h => by simp [cycle_roots] at h, fun _ s hs => by simp at hs⟩
  | cons s ss ih =>
    intro visited hroots hfuel hgood
    have hsu : s ∈ univ := hroots (by simp)
    have hss : ss ⊆ univ := fun x hx => hroots (List.mem_cons_of_mem s hx)
    by_cases hsv : s ∈ visited
    · have heq : cycle_roots adj fuel (s :: ss) visited
          = cycle_roots adj fuel ss visited := by
        simp [cycle_roots, hsv]
      rw [heq]
      have IH := ih visited hss hfuel hgood
      refine ⟨IH.1, fun hf s' hs' => ?_⟩
      rcases List.mem_cons.mp hs' with rfl | hs''
      · exact hgood s' hsv
      · exact IH.2 hf s' hs''
    · have HS := H s visited [] hsu hsv (by simp) hfuel trivial
        (fun u hu _ => hgood u hu)
      rcases hres : has_cycle_dfs adj fuel s visited [] with ⟨b, visited'⟩
      rw [hres] at HS
      cases b with
      | true =>
        have heq : cycle_roots adj fuel (s :: ss) visited = true := by
          simp [cycle_roots, hsv, hres]
        rw [heq]
        exact ⟨fun _ => HS.1 rfl, fun hf => by simp at hf⟩
      | false =>
        obtain ⟨hsub, hsmem, hgood'⟩ := HS.2 rfl
        have hgood'' : ∀ u ∈ visited', Good adj u := fun u hu => hgood' u hu (by simp)
        have heq : cycle_roots adj fuel (s :: ss) visited
            = cycle_roots adj fuel ss visited' := by
          simp [cycle_roots, hsv, hres]
        rw [heq]
        have IH := ih visited' hss (le_trans (UC_mono hsub) hfuel) hgood''
        refine ⟨IH.1, fun hf s' hs' => ?_⟩
        rcases List.mem_cons.mp hs' with rfl | hs''
        · exact hgood'' s' hsmem
        · exact IH.2 hf s' hs''

/-- Correctness of the synthesizer's DFS cycle detection: provided every
recorded dependency is itself a declared step id (which validation
guarantees), `detect_cycle` returns `true` exactly when the dependency graph
has a directed cycle.  The result is independent of the set-iteration order
Python happens to use, since both sides are order-free. -/
theorem detect_cycle_iff_hasCycle (d : FlowDefinition)
    (Hadj : ∀ a b, b ∈ dependencies_map d a → b ∈ step_ids d) :
    detect_cycle d = true ↔ HasCycleGraph (dependencies_map d) := by
  have Hdom : ∀ a b, b ∈ dependencies_map d a → a ∈ step_ids d := by
    intro a b hb
    unfold dependencies_map at hb
    by_cases h : a ∈ step_ids d
    · exact h
    · simp [h] at hb
  have fuelOK : UC (step_ids d) [] ≤ (step_ids d).length + 1 := by
    unfold UC
    simp only [List.toFinset_nil, Finset.sdiff_empty]
    exact le_trans (List.toFinset_card_le _) (by omega)
  have spec := cycle_roots_spec (dependencies_map d) (step_ids d) Hadj
    ((step_ids d).length + 1) (step_ids d) [] (List.Subset.refl _) fuelOK (by simp)
  constructor
  · intro htrue
    exact spec.1 htrue
  · intro hcyc
    by_contra hfalse
    have hf : detect_cycle d = false := by
      revert hfalse
      unfold detect_cycle
      cases cycle_roots (dependencies_map d) ((step_ids d).length + 1) (step_ids d) [] <;>
        simp
    have hallgood := spec.2 hf
    obtain ⟨v, hv⟩ := hcyc
    rcases Relation.TransGen.head'_iff.mp hv with ⟨c, hvc, _⟩
    have hvuniv : v ∈ step_ids d := Hdom v c hvc
    exact hallgood v hvuniv v Relation.ReflTransGen.refl hv

/-- The edge relation of a flow definition in the claim's direction:
`edge_step d a b` when some edge goes from step `a` to step `b`. -/
def edge_step (d : FlowDefinition) (a b : String) : Prop :=
  ∃ e ∈ d.edges, e.source = a ∧ e.target = b

theorem mem_step_ids_iff (d : FlowDefinition) (s : String) :
    s ∈ step_ids d ↔ s ∈ d.steps := by
  simp [step_ids, List.mem_dedup]

/-- When every edge has non-empty, declared endpoints, the DFS adjacency is
exactly the reversed edge relation. -/
theorem adjRel_iff_edge_step (d : FlowDefinition)
    (hvalid : ∀ e ∈ d.edges, e.source ≠ "" ∧ e.target ≠ "")
    (hdecl : ∀ e ∈ d.edges, e.source ∈ d.steps ∧ e.target ∈ d.steps) :
    ∀ t s, adjRel (dependencies_map d) t s ↔ edge_step d s t := by
  intro t s
  unfold adjRel dependencies_map
  constructor
  · intro h
    by_cases ht : t ∈ step_ids d
    · simp only [ht, if_true, List.mem_map, List.mem_filter] at h
      obtain ⟨e, ⟨he, hcond⟩, hsrc⟩ := h
      simp only [Bool.and_eq_true, decide_eq_true_eq] at hcond
      exact ⟨e, he, hsrc, hcond.2⟩
    · simp [ht] at h
  · rintro ⟨e, he, rfl, rfl⟩
    have ht : e.target ∈ step_ids d := (mem_step_ids_iff d _).mpr (hdecl e he).2
    have hv : valid_edge e = true := by
      obtain ⟨h1, h2⟩ := hvalid e he
      simp [valid_edge, h1, h2]
    simp only [ht, if_true, List.mem_map, List.mem_filter]
    exact ⟨e, ⟨he, by simp [hv]⟩, rfl⟩

/-- Cycles in the DFS adjacency are cycles of the edge relation. -/
theorem hasCycleGraph_iff_edge_cycle (d : FlowDefinition)
    (hvalid : ∀ e ∈ d.edges, e.source ≠ "" ∧ e.target ≠ "")
    (hdecl : ∀ e ∈ d.edges, e.source ∈ d.steps ∧ e.target ∈ d.steps) :
    HasCycleGraph (dependencies_map d) ↔ ∃ v, Relation.TransGen (edge_step d) v v := by
  have hiff := adjRel_iff_edge_step d hvalid hdecl
  constructor
  · rintro ⟨v, hv⟩
    refine ⟨v, ?_⟩
    have hswap : Relation.TransGen (Function.swap (edge_step d)) v v :=
      Relation.TransGen.mono (fun a b hab => (hiff a b).mp hab) hv
    exact Relation.TransGen.swap hswap
  · rintro ⟨v, hv⟩
    refine ⟨v, ?_⟩
    have hswap : Relation.TransGen (Function.swap (adjRel (dependencies_map d))) v v :=
      Relation.TransGen.mono (fun a b hab => (hiff b a).mpr hab) hv
    exact Relation.TransGen.swap hswap

/-- The definition used to refute claim C6: one declared step `A` and one
edge whose `source` is the empty string (hence falsy). -/
def flowWithEmptySource : FlowDefinition := ⟨["A"], [⟨"", "A"⟩]⟩

/-- C6, counterexample: the edge `{"source": "", "target": "A"}` has a
source that is not a declared step id, yet validation accepts the
definition and a workflow is submitted — the `if source and target`
truthiness guard silently skips such edges instead of rejecting them. -/
theorem C6_undeclared_endpoint_not_rejected_cex :
    validate_flow_definition flowWithEmptySource = .ok () ∧
    ¬ ("" ∈ flowWithEmptySource.steps) ∧
    (create_flow_workflow_with_hera true flowWithEmptySource "flow-1").2 = true := by
  refine ⟨rfl, by decide, rfl⟩

/-- C6, amended: for a definition all of whose edges have non-empty
endpoints, validation succeeds exactly when there is at least one step,
every edge endpoint is a declared step id, and the graph induced by the
edges is acyclic; on every validation error no workflow is submitted, and
when validation succeeds the workflow is submitted.  (Edges with an empty
`source` or `target` are silently ignored by the `if source and target`
guard, not rejected — that is the only amendment.) -/
theorem C6_flow_validation_amended (d : FlowDefinition)
    (hvalid : ∀ e ∈ d.edges, e.source ≠ "" ∧ e.target ≠ "") :
    (validate_flow_definition d = .ok () ↔
      (d.steps ≠ [] ∧ (∀ e ∈ d.edges, e.source ∈ d.steps ∧ e.target ∈ d.steps) ∧
        ¬ ∃ v, Relation.TransGen (edge_step d) v v)) ∧
    (∀ wf, (create_flow_workflow_with_hera true d wf).2 = true ↔
      validate_flow_definition d = .ok ()) := by
  constructor
  · by_cases hsteps : d.steps = []
    · simp [validate_flow_definition, hsteps]
    · have hval_eq : validate_flow_definition d
          = match d.edges.find? (fun e => valid_edge e &&
              !(decide (e.source ∈ step_ids d) && decide (e.target ∈ step_ids d))) with
            | some e => .error (.invalidEdge e.source e.target)
            | none => if detect_cycle d then .error .cyclic else .ok () := by
        simp only [validate_flow_definition, if_neg hsteps]
      cases hfind : d.edges.find? (fun e => valid_edge e &&
          !(decide (e.source ∈ step_ids d) && decide (e.target ∈ step_ids d))) with
      | some e =>
        have hpe := List.find?_some hfind
        have hme : e ∈ d.edges := List.mem_of_find?_eq_some hfind
        simp only [Bool.and_eq_true, Bool.not_eq_true', Bool.and_eq_false_iff,
          decide_eq_false_iff_not] at hpe
        have hbad : ¬(e.source ∈ d.steps ∧ e.target ∈ d.steps) := by
          rcases hpe.2 with h | h
          · exact fun hc => h ((mem_step_ids_iff d _).mpr hc.1)
          · exact fun hc => h ((mem_step_ids_iff d _).mpr hc.2)
        have hverr : validate_flow_definition d
            = .error (.invalidEdge e.source e.target) := by
          rw [hval_eq, hfind]
        constructor
        · intro hok
          rw [hverr] at hok
          exact absurd hok (by simp)
        · intro ⟨_, hdecl, _⟩
          exact absurd ⟨(hdecl e hme).1, (hdecl e hme).2⟩ hbad
      | none =>
        have hdecl : ∀ e ∈ d.edges, e.source ∈ d.steps ∧ e.target ∈ d.steps := by
          intro e he
          have hpe := List.find?_eq_none.mp hfind e he
          obtain ⟨h1, h2⟩ := hvalid e he
          have hv : valid_edge e = true := by simp [valid_edge, h1, h2]
          have hmem : (decide (e.source ∈ step_ids d)
              && decide (e.target ∈ step_ids d)) = true := by
            by_contra hc
            exact hpe (by simp [hv, hc])
          simp only [Bool.and_eq_true, decide_eq_true_eq] at hmem
          exact ⟨(mem_step_ids_iff d _).mp hmem.1, (mem_step_ids_iff d _).mp hmem.2⟩
        have Hadj : ∀ a b, b ∈ dependencies_map d a → b ∈ step_ids d := by
          intro a b hb
          unfold dependencies_map at hb
          by_cases ha : a ∈ step_ids d
          · simp only [ha, if_true, List.mem_map, List.mem_filter] at hb
            obtain ⟨e, ⟨he, _⟩, hsrc⟩ := hb
            rw [mem_step_ids_iff]
            exact hsrc ▸ (hdecl e he).1
          · simp [ha] at hb
        have hdet := detect_cycle_iff_hasCycle d Hadj
        have hvnone : validate_flow_definition d
            = if detect_cycle d then .error .cyclic else .ok () := by
          rw [hval_eq, hfind]
        by_cases hcyc : detect_cycle d
        · constructor
          · intro hok
            rw [hvnone, if_pos hcyc] at hok
            exact absurd hok (by simp)
          · intro ⟨_, _, hnocyc⟩
            exact absurd ((hasCycleGraph_iff_edge_cycle d hvalid hdecl).mp
              (hdet.mp hcyc)) hnocyc
        · have hok : validate_flow_definition d = .ok () := by
            rw [hvnone, if_neg hcyc]
          rw [hok]
          simp only [true_iff]
          refine ⟨hsteps, hdecl, ?_⟩
          intro hc
          exact hcyc (hdet.mpr ((hasCycleGraph_iff_edge_cycle d hvalid hdecl).mpr hc))
  · intro wf
    cases hval : validate_flow_definition d with
    | error e => simp [create_flow_workflow_with_hera, hval]
    | ok u => cases u; simp [create_flow_workflow_with_hera, hval]

/-- C6, witness: the amended theorem applied to the concrete two-step flow
`A → B`, whose validation succeeds; the theorem yields that its edge graph
is acyclic and its endpoints declared. -/
theorem C6_flow_validation_amended_witness :
    (∀ e ∈ (⟨["A", "B"], [⟨"A", "B"⟩]⟩ : FlowDefinition).edges,
        e.source ∈ ["A", "B"] ∧ e.target ∈ ["A", "B"]) ∧
    ¬ ∃ v, Relation.TransGen (edge_step ⟨["A", "B"], [⟨"A", "B"⟩]⟩) v v := by
  have h := (C6_flow_validation_amended ⟨["A", "B"], [⟨"A", "B"⟩]⟩ (by decide)).1.mp rfl
  exact ⟨h.2.1, h.2.2⟩

end ArgoCore

namespace ArgoCore

/-- The store state touched by `run_task`: the task's run rows and the list
of workflows submitted to the engine. -/
structure TaskStore where
  runs : List RunRec
  submitted : List String
deriving DecidableEq, Repr

/-- `run_task` (main.py lines 1010-1113, new-schema path; the legacy-schema
branch performs the same conflict check, numbering and insert through raw
SQL).  The conflict gate reads the latest run and rejects when its phase is
in `["Running", "Pending"]`, *before* `create_and_submit_workflow` is
called; otherwise the workflow is submitted, the next run number is
re-queried as latest-run-number + 1 (1 when the task has no runs), and a
new `Pending` row is inserted.  `wfId` is the engine-assigned workflow
name, `newId` the row's autoincrement key. -/
def run_task (st : TaskStore) (wfId : String) (newId : Nat) :
    Except String Unit × TaskStore :=
  let conflict := match latest_run st.runs with
    | some r => r.phase = "Running" || r.phase = "Pending"
    | none => false
  if conflict then
    (.error "already has a running workflow", st)
  else
    let submitted := st.submitted ++ [wfId]
    let next_run_number := match latest_run st.runs with
      | some m => m.run_number + 1
      | none => 1
    (.ok (), ⟨st.runs ++ [⟨newId, next_run_number, "Pending", wfId⟩], submitted⟩)

/-- A `flow_step_runs` row created by `run_flow`. -/
structure FlowStepRunRec where
  flow_run_id : Nat
  step_id : String
  workflow_node_id : String
  phase : String
deriving DecidableEq, Repr

/-- The store state touched by `run_flow`. -/
structure FlowStore where
  runs : List RunRec
  stepRuns : List FlowStepRunRec
  submitted : List String
deriving DecidableEq, Repr

/-- `run_flow` (main.py lines 2957-3032).  Conflict gate on the latest flow
run, `if not definition` guard (`defnPresent` is the definition being a
non-empty dict), then `create_flow_workflow_with_hera` (validation +
submission), then a `Pending` `FlowRun` row numbered latest + 1 and one
`Pending` `FlowStepRun` per declared step with a truthy id
(`if step_id:`). -/
def run_flow (st : FlowStore) (pvcBound : Bool) (defn : FlowDefinition)
    (defnPresent : Bool) (wfName : String) (newId : Nat) :
    Except String Unit × FlowStore :=
  let conflict := match latest_run st.runs with
    | some r => r.phase = "Running" || r.phase = "Pending"
    | none => false
  if conflict then
    (.error "already has a running workflow", st)
  else if !defnPresent then
    (.error "Flow definition is empty", st)
  else
    let res := create_flow_workflow_with_hera pvcBound defn wfName
    let st' : FlowStore :=
      { st with submitted := st.submitted ++ (if res.2 then [wfName] else []) }
    match res.1 with
    | .error _ => (.error "Failed to run flow", st')
    | .ok wf =>
      let next_run_number := match latest_run st.runs with
        | some m => m.run_number + 1
        | none => 1
      (.ok (),
        { st' with
          runs := st.runs ++ [⟨newId, next_run_number, "Pending", wf⟩],
          stepRuns := st.stepRuns ++
            (defn.steps.filter (fun sid => sid ≠ "")).map
              (fun sid => ⟨newId, sid, sid, "Pending"⟩) })

/-- The latest-run-plus-one numbering used by the code equals the spec's
`max(run_number) + 1` (and `1` for a task without runs). -/
theorem next_number_eq_max_succ (runs : List RunRec) :
    (match latest_run runs with
      | some m => m.run_number + 1
      | none => 1) = maxRunNumber runs + 1 := by
  cases h : latest_run runs with
  | none =>
    have he : runs = [] := (latest_run_eq_none_iff runs).mp h
    subst he
    simp [maxRunNumber]
  | some m =>
    show m.run_number + 1 = maxRunNumber runs + 1
    rw [latest_run_number_eq_max h]

theorem nodup_append_max_succ (runs : List RunRec) (rec : RunRec)
    (hnum : rec.run_number = maxRunNumber runs + 1)
    (hnd : (runs.map RunRec.run_number).Nodup) :
    ((runs ++ [rec]).map RunRec.run_number).Nodup := by
  rw [List.map_append, List.nodup_append]
  refine ⟨hnd, List.nodup_singleton _, ?_⟩
  intro a ha hb
  simp only [List.map_cons, List.map_nil, List.mem_singleton] at hb
  subst hb
  simp only [List.mem_map] at ha
  obtain ⟨r, hr, hra⟩ := ha
  have := maxRunNumber_ge r hr
  omega

/-- C4: when the latest run of a task (resp. of a flow) has stored phase
`Pending` or `Running`, `run_task` (resp. `run_flow`) rejects with a
conflict error and the store is returned unchanged: no workflow is
submitted and no new run row appears. -/
theorem C4_conflict_rejects :
    (∀ (st : TaskStore) (wfId : String) (newId : Nat) (r : RunRec),
      latest_run st.runs = some r →
      (r.phase = "Pending" ∨ r.phase = "Running") →
      run_task st wfId newId = (.error "already has a running workflow", st)) ∧
    (∀ (fst : FlowStore) (pvc : Bool) (defn : FlowDefinition) (dp : Bool)
        (wfName : String) (newId : Nat) (r : RunRec),
      latest_run fst.runs = some r →
      (r.phase = "Pending" ∨ r.phase = "Running") →
      run_flow fst pvc defn dp wfName newId
        = (.error "already has a running workflow", fst)) := by
  constructor
  · intro st wfId newId r hr hph
    have hconf : (match latest_run st.runs with
        | some r => r.phase = "Running" || r.phase = "Pending"
        | none => false) = true := by
      rw [hr]
      rcases hph with h | h <;> simp [h]
    simp only [run_task, hconf, if_true]
  · intro fst pvc defn dp wfName newId r hr hph
    have hconf : (match latest_run fst.runs with
        | some r => r.phase = "Running" || r.phase = "Pending"
        | none => false) = true := by
      rw [hr]
      rcases hph with h | h <;> simp [h]
    simp only [run_flow, hconf, if_true]

/-- C4, witness: a task and a flow whose single stored run is `Running` are
both rejected and left unchanged. -/
theorem C4_conflict_rejects_witness :
    run_task ⟨[⟨1, 1, "Running", "wf-1"⟩], []⟩ "wf-2" 2
      = (.error "already has a running workflow", ⟨[⟨1, 1, "Running", "wf-1"⟩], []⟩) ∧
    run_flow ⟨[⟨1, 1, "Pending", "wf-1"⟩], [], []⟩ true ⟨["A"], []⟩ true "wf-2" 2
      = (.error "already has a running workflow", ⟨[⟨1, 1, "Pending", "wf-1"⟩], [], []⟩) := by
  constructor
  · exact C4_conflict_rejects.1 ⟨[⟨1, 1, "Running", "wf-1"⟩], []⟩ "wf-2" 2
      ⟨1, 1, "Running", "wf-1"⟩ rfl (Or.inr rfl)
  · exact C4_conflict_rejects.2 ⟨[⟨1, 1, "Pending", "wf-1"⟩], [], []⟩ true ⟨["A"], []⟩
      true "wf-2" 2 ⟨1, 1, "Pending", "wf-1"⟩ rfl (Or.inl rfl)

/-- C8: when the conflict gate passes, run creation appends exactly one new
row whose `run_number` is `max(run_number) + 1` (so `1` for a task without
runs, since `max` over nothing is `0`) and whose phase is `Pending`; if the
existing run numbers are pairwise distinct they remain pairwise distinct.
The same holds for `run_flow`'s flow-run row. -/
theorem C8_run_number_assignment :
    (∀ (st : TaskStore) (wfId : String) (newId : Nat),
      (match latest_run st.runs with
        | some r => r.phase ≠ "Running" ∧ r.phase ≠ "Pending"
        | none => True) →
      (run_task st wfId newId).1 = .ok () ∧
      (run_task st wfId newId).2.runs
        = st.runs ++ [⟨newId, maxRunNumber st.runs + 1, "Pending", wfId⟩] ∧
      (st.runs = [] → maxRunNumber st.runs + 1 = 1) ∧
      ((st.runs.map RunRec.run_number).Nodup →
        ((run_task st wfId newId).2.runs.map RunRec.run_number).Nodup)) ∧
    (∀ (fst : FlowStore) (defn : FlowDefinition) (wfName : String) (newId : Nat),
      (match latest_run fst.runs with
        | some r => r.phase ≠ "Running" ∧ r.phase ≠ "Pending"
        | none => True) →
      validate_flow_definition defn = .ok () →
      (run_flow fst true defn true wfName newId).1 = .ok () ∧
      (run_flow fst true defn true wfName newId).2.runs
        = fst.runs ++ [⟨newId, maxRunNumber fst.runs + 1, "Pending", wfName⟩] ∧
      ((fst.runs.map RunRec.run_number).Nodup →
        ((run_flow fst true defn true wfName newId).2.runs.map
          RunRec.run_number).Nodup)) := by
  have hconf_false : ∀ (runs : List RunRec),
      (match latest_run runs with
        | some r => r.phase ≠ "Running" ∧ r.phase ≠ "Pending"
        | none => True) →
      (match latest_run runs with
        | some r => r.phase = "Running" || r.phase = "Pending"
        | none => false) = false := by
    intro runs hact
    cases h : latest_run runs with
    | none => simp
    | some r =>
      rw [h] at hact
      simp [hact.1, hact.2]
  constructor
  · intro st wfId newId hact
    have hc := hconf_false st.runs hact
    have heq : run_task st wfId newId
        = (.ok (), ⟨st.runs ++ [⟨newId, maxRunNumber st.runs + 1, "Pending", wfId⟩],
            st.submitted ++ [wfId]⟩) := by
      simp only [run_task, hc, Bool.false_eq_true, if_false,
        next_number_eq_max_succ st.runs]
    rw [heq]
    refine ⟨rfl, rfl, ?_, ?_⟩
    · intro he; rw [he]; simp [maxRunNumber]
    · intro hnd
      exact nodup_append_max_succ st.runs _ rfl hnd
  · intro fst defn wfName newId hact hval
    have hc := hconf_false fst.runs hact
    have hcreate : create_flow_workflow_with_hera true defn wfName = (.ok wfName, true) := by
      simp [create_flow_workflow_with_hera, hval]
    have heq : run_flow fst true defn true wfName newId
        = (.ok (),
            { runs := fst.runs ++ [⟨newId, maxRunNumber fst.runs + 1, "Pending", wfName⟩],
              stepRuns := fst.stepRuns ++
                (defn.steps.filter (fun sid => sid ≠ "")).map
                  (fun sid => ⟨newId, sid, sid, "Pending"⟩),
              submitted := fst.submitted ++ [wfName] }) := by
      simp only [run_flow, hc, Bool.false_eq_true, if_false, hcreate,
        Bool.not_true, next_number_eq_max_succ fst.runs]
      simp
    rw [heq]
    refine ⟨rfl, rfl, ?_⟩
    intro hnd
    exact nodup_append_max_succ fst.runs _ rfl hnd

/-- C8, witness: a task with runs numbered 1 and 2 (latest `Succeeded`)
receives run number 3 = max + 1 with phase `Pending`, and the numbers stay
distinct; a fresh flow receives run number 1. -/
theorem C8_run_number_assignment_witness :
    ((run_task ⟨[⟨1, 1, "Failed", "wf-1"⟩, ⟨2, 2, "Succeeded", "wf-2"⟩], []⟩
        "wf-3" 3).2.runs
      = [⟨1, 1, "Failed", "wf-1"⟩, ⟨2, 2, "Succeeded", "wf-2"⟩,
         ⟨3, 3, "Pending", "wf-3"⟩]) ∧
    (((run_task ⟨[⟨1, 1, "Failed", "wf-1"⟩, ⟨2, 2, "Succeeded", "wf-2"⟩], []⟩
        "wf-3" 3).2.runs.map RunRec.run_number).Nodup) ∧
    ((run_flow ⟨[], [], []⟩ true ⟨["A"], []⟩ true "flow-1" 1).2.runs
      = [⟨1, 1, "Pending", "flow-1"⟩]) := by
  have h1 := C8_run_number_assignment.1
    ⟨[⟨1, 1, "Failed", "wf-1"⟩, ⟨2, 2, "Succeeded", "wf-2"⟩], []⟩ "wf-3" 3
    (by constructor <;> decide)
  have h2 := C8_run_number_assignment.2 ⟨[], [], []⟩ ⟨["A"], []⟩ "flow-1" 1
    trivial rfl
  refine ⟨?_, ?_, ?_⟩
  · rw [h1.2.1]; rfl
  · exact h1.2.2.2 (by decide)
  · rw [h2.2.1]; rfl

end ArgoCore

namespace ArgoCore

/-- A stored log record as served by the log endpoints. -/
structure LogEntry where
  node_id : String
  pod_name : String
  phase : String
  logs : String
deriving DecidableEq, Repr

/-- The response of the pull log endpoints: the log list, the `source` tag
(`"database"`, `"kubernetes"` or `"error"`), the served `runNumber`, and
the error text when `source = "error"`. -/
structure LogsResponse where
  logs : List LogEntry
  source : String
  runNumber : Nat
  error : Option String
deriving DecidableEq, Repr

/-- The phase-reconciliation step shared verbatim by `get_run_logs`
(main.py 1494-1536), `get_task_logs` (1642-1684), the push stream's
`fetch_and_send_logs` (1786-1830) and `get_flow_run` (3182-3204): fetch the
workflow status, resolve it, and *if the stored phase differs, overwrite it
with the resolved phase* — unconditionally, with no terminal-phase guard.
`engine = none` is the `except` path (status fetch raised): the stored
phase is left untouched. -/
def run_phase_after_engine_check (stored : String) (engine : Option StatusDoc) : String :=
  match engine with
  | none => stored
  | some s =>
    let cur := determine_workflow_phase s
    if stored ≠ cur then cur else stored

/-- The terminal-phase rewrite of stale log phases (main.py 1546-1557 and
1697-1705): when the resolved phase is terminal, every served log record
whose phase differs is overwritten with it. -/
def rewrite_stale_log_phases (cur : String) (entries : List LogEntry) : List LogEntry :=
  entries.map fun e =>
    if terminal_phases.contains cur && e.phase ≠ cur then { e with phase := cur } else e

/-- The body shared by `get_run_logs` and `get_task_logs` once a run row is
in hand (the source duplicates this block in both endpoints): reconcile the
run phase, serve database logs (with the stale-phase rewrite) when any
exist, otherwise fall back to the engine's pod logs, and on engine failure
return an empty list with `source = "error"`.  The second component is the
run's stored phase after the call. -/
def serve_run_logs (run : RunRec) (engine : Option StatusDoc)
    (dbLogs : List LogEntry) (k8s : Except String (List LogEntry)) :
    LogsResponse × String :=
  let newPhase := run_phase_after_engine_check run.phase engine
  let cur := match engine with
    | some s => determine_workflow_phase s
    | none => run.phase
  if dbLogs ≠ [] then
    (⟨rewrite_stale_log_phases cur dbLogs, "database", run.run_number, none⟩, newPhase)
  else
    match k8s with
    | .ok ks =>
      if ks ≠ [] then (⟨ks, "kubernetes", run.run_number, none⟩, newPhase)
      else (⟨[], "kubernetes", run.run_number, none⟩, newPhase)
    | .error e => (⟨[], "error", run.run_number, some e⟩, newPhase)

/-- `get_run_logs` (main.py 1456-1582): 404 when the requested run row does
not exist, otherwise the shared body above. -/
def get_run_logs (run? : Option RunRec) (engine : Option StatusDoc)
    (dbLogs : List LogEntry) (k8s : Except String (List LogEntry)) :
    Except Nat (LogsResponse × String) :=
  match run? with
  | none => .error 404
  | some run => .ok (serve_run_logs run engine dbLogs k8s)

/-- `get_task_logs` (main.py 1584-1726): 404 when the task does not exist;
the run is the one numbered `run_number` when that parameter is truthy
(Python `if run_number:`, so `0` and `None` both mean "latest"), else the
latest run; when no run row is found the endpoint returns an empty log list
with `source = "database"` and `runNumber = 0` instead of failing. -/
def get_task_logs (taskExists : Bool) (runs : List RunRec)
    (run_number : Option Nat) (engine : Option StatusDoc)
    (dbLogs : List LogEntry) (k8s : Except String (List LogEntry)) :
    Except Nat (LogsResponse × Option String) :=
  if !taskExists then .error 404
  else
    let run? := match run_number with
      | some n => if n ≠ 0 then runs.find? (fun r => r.run_number = n)
                  else latest_run runs
      | none => latest_run runs
    match run? with
    | none => .ok (⟨[], "database", 0, none⟩, none)
    | some run =>
      let served := serve_run_logs run engine dbLogs k8s
      .ok (served.1, some served.2)

/-- The first action of the push stream. -/
inductive WsInit where
  | errorFrame (message : String)
  | stream (runId : Nat) (workflowId : String)
deriving DecidableEq, Repr

/-- The connect step of `websocket_logs` (main.py 1728-1777): resolve the
task's latest run; when there is none, emit an error frame and return
(closing the stream); otherwise stream that run's workflow. -/
def websocket_logs_connect (task_id : String) (runs : List RunRec) : WsInit :=
  match latest_run runs with
  | none => .errorFrame ("No runs found for task " ++ task_id)
  | some r => .stream r.id r.workflow_id

/-- The status used to refute claim C1: the engine reports the workflow as
`Running` with a live pod. -/
def statusRunningPod : StatusDoc := ⟨"Running", [("n", ⟨"Pod", "Running"⟩)]⟩

/-- C1, counterexample: a run stored as `Succeeded` (terminal) is
overwritten to `"Running"` by the `get_run_logs` read path when the engine
resolves the workflow as running — the phase update has no terminal guard,
so a terminal stored phase is not preserved by subsequent operations. -/
theorem C1_terminal_phase_overwritten_cex :
    terminal_phases.contains "Succeeded" = true ∧
    get_run_logs (some ⟨1, 1, "Succeeded", "wf-1"⟩) (some statusRunningPod) [] (.ok [])
      = .ok (⟨[], "kubernetes", 1, none⟩, "Running") ∧
    ("Running" : String) ≠ "Succeeded" := by
  refine ⟨by decide, rfl, by decide⟩

/-- C1, amended: the read paths (`get_run_logs`, `get_task_logs`, the push
stream, `get_flow_run`) overwrite the stored phase with the resolver's
output whenever the two differ; hence a terminal stored phase is preserved
exactly when the engine call fails or the engine's status resolves to that
same phase.  There is no guard refusing to regress a terminal phase. -/
theorem C1_terminal_phase_amended (run : RunRec) (engine : Option StatusDoc)
    (dbLogs : List LogEntry) (k8s : Except String (List LogEntry))
    (hterm : terminal_phases.contains run.phase = true) :
    (run_phase_after_engine_check run.phase none = run.phase) ∧
    (∀ s, run_phase_after_engine_check run.phase (some s)
        = determine_workflow_phase s) ∧
    (∀ s, engine = some s →
      (run_phase_after_engine_check run.phase engine = run.phase ↔
        determine_workflow_phase s = run.phase)) ∧
    ((engine = none ∨ ∃ s, engine = some s ∧ determine_workflow_phase s = run.phase) →
      ∃ resp, get_run_logs (some run) engine dbLogs k8s = .ok (resp, run.phase)) := by
  have hsome : ∀ s, run_phase_after_engine_check run.phase (some s)
      = determine_workflow_phase s := by
    intro s
    unfold run_phase_after_engine_check
    by_cases h : run.phase = determine_workflow_phase s
    · simp [h]
    · simp [h]
  have hsnd : (serve_run_logs run engine dbLogs k8s).2
      = run_phase_after_engine_check run.phase engine := by
    unfold serve_run_logs
    by_cases hdb : dbLogs = []
    · subst hdb
      cases k8s with
      | ok ks =>
        by_cases hks : ks = []
        · subst hks; simp
        · simp [hks]
      | error e => simp
    · simp [hdb]
  refine ⟨rfl, hsome, ?_, ?_⟩
  · intro s hs
    subst hs
    rw [hsome s]
  · intro hpres
    have hph : run_phase_after_engine_check run.phase engine = run.phase := by
      rcases hpres with rfl | ⟨s, rfl, hs⟩
      · rfl
      · rw [hsome s, hs]
    refine ⟨(serve_run_logs run engine dbLogs k8s).1, ?_⟩
    have hget : get_run_logs (some run) engine dbLogs k8s
        = .ok (serve_run_logs run engine dbLogs k8s) := rfl
    rw [hget, show run.phase = (serve_run_logs run engine dbLogs k8s).2 from
      (hsnd.trans hph).symm]

/-- C1, witness for the amended theorem: a `Failed` run whose workflow the
engine still reports as `Failed` keeps its stored phase through
`get_run_logs`. -/
theorem C1_terminal_phase_amended_witness :
    ∃ resp, get_run_logs (some ⟨1, 1, "Failed", "wf-1"⟩) (some ⟨"Failed", []⟩) []
        (.ok []) = .ok (resp, "Failed") :=
  (C1_terminal_phase_amended ⟨1, 1, "Failed", "wf-1"⟩ (some ⟨"Failed", []⟩) [] (.ok [])
    (by decide)).2.2.2 (Or.inr ⟨⟨"Failed", []⟩, rfl, by decide⟩)

/-- C10: for a task that exists but has no run rows, the pull endpoint
`get_task_logs` does not fail — it returns an empty log list with source
`"database"` and `runNumber = 0` — whereas the push stream emits an error
frame and closes for the same situation. -/
theorem C10_no_runs_pull_vs_push (task_id : String) (rn : Option Nat)
    (engine : Option StatusDoc) (dbLogs : List LogEntry)
    (k8s : Except String (List LogEntry)) :
    get_task_logs true [] rn engine dbLogs k8s = .ok (⟨[], "database", 0, none⟩, none) ∧
    websocket_logs_connect task_id []
      = .errorFrame ("No runs found for task " ++ task_id) := by
  constructor
  · unfold get_task_logs
    rcases rn with _ | n
    · rfl
    · by_cases hn : n ≠ 0
      · simp [hn, latest_run]
      · simp [hn, latest_run]
  · rfl

end ArgoCore

namespace ArgoCore

/-- The fixed preamble (`set -e`) of the bootstrap script (workflow_hera.py line 40). -/
def seg_preamble : List String := [
  "set -e",
  ""
]

/-- Lines emitted when `system_dependencies` is truthy: the nix-portable availability check (line 47). -/
def seg_nix_head : List String := [
  "# Install system dependencies using nix-portable",
  "if ! command -v nix-portable &> /dev/null; then",
  "  echo \x27Error: nix-portable not found in image. Using nix-portable base image required.\x27",
  "  exit 1",
  "fi",
  ""
]

/-- Lines emitted when `system_dependencies` and `use_cache` are both truthy: the shared Nix store setup (line 58). -/
def seg_nix_cache : List String := [
  "# PVC is mounted directly to ~/.nix-portable/nix/store - no copying needed!",
  "# This eliminates rsync/cp overhead - packages are directly accessible",
  "export NP_STORE=~/.nix-portable/nix/store",
  "  ",
  "# Create symlink for backward compatibility with scripts that reference /nix/store",
  "mkdir -p /nix",
  "rm -f /nix/store 2>/dev/null || true",
  "ln -sf ~/.nix-portable/nix/store /nix/store",
  "  ",
  "# Verify store is accessible",
  "if [ -w ~/.nix-portable/nix/store ]; then",
  "  echo \"Nix store is writable (mounted directly from PVC)\"",
  "else",
  "  echo \"Warning: Nix store may not be writable\"",
  "fi",
  "  ",
  "# Check available disk space before attempting downloads",
  "AVAILABLE_SPACE=$(df -BG ~/.nix-portable/nix/store 2>/dev/null | tail -1 | awk \x27\x7bprint $4\x7d\x27 | sed \x27s/G//\x27 || echo \x27unknown\x27)",
  "if [ \"$AVAILABLE_SPACE\" != \"unknown\" ] && [ \"$AVAILABLE_SPACE\" -lt 1 ]; then",
  "  echo -e \"\\033[0;31m[ERROR]\\033[0m Insufficient disk space: $\x7bAVAILABLE_SPACE\x7dGB available\"",
  "  echo \"The Nix store PVC is full. Please free up space or increase PVC size.\"",
  "  echo \"Current usage:\"",
  "  df -h ~/.nix-portable/nix/store 2>/dev/null || true",
  "  exit 1",
  "elif [ \"$AVAILABLE_SPACE\" != \"unknown\" ]; then",
  "  echo -e \"\\033[0;34m[NIX CACHE]\\033[0m Available disk space: $\x7bAVAILABLE_SPACE\x7dGB\"",
  "fi",
  "  ",
  "# Set up database directory - store it in the PVC under .nix-db",
  "mkdir -p ~/.nix-portable/nix/var/nix",
  "mkdir -p ~/.nix-portable/nix/store/.nix-db",
  "# Create symlink from nix-portable\x27s expected db location to PVC location",
  "rm -rf ~/.nix-portable/nix/var/nix/db 2>/dev/null || true",
  "ln -sf ~/.nix-portable/nix/store/.nix-db ~/.nix-portable/nix/var/nix/db",
  "  ",
  "# Count packages in store (mounted directly, no copying needed)",
  "PACKAGE_COUNT=$(find ~/.nix-portable/nix/store -mindepth 1 -maxdepth 1 -type d 2>/dev/null | wc -l || echo 0)",
  "if [ $PACKAGE_COUNT -gt 0 ]; then",
  "  echo -e \"\\033[0;34m[NIX CACHE]\\033[0m Found $PACKAGE_COUNT packages in store (mounted directly, no copy needed)\"",
  "else",
  "  echo \"No packages found in store (first run)\"",
  "fi",
  "  ",
  "# Check if database exists",
  "if [ -f ~/.nix-portable/nix/store/.nix-db/db.sqlite ]; then",
  "  DB_SIZE=$(stat -c%s ~/.nix-portable/nix/store/.nix-db/db.sqlite 2>/dev/null || echo 0)",
  "  echo -e \"\\033[0;34m[NIX CACHE]\\033[0m Database found (size: $DB_SIZE bytes)\"",
  "else",
  "  echo \"Database will be created on first run (this is normal for first run)\"",
  "fi",
  "# Verify database directory is accessible and writable",
  "if [ -w ~/.nix-portable/nix/var/nix/db ]; then",
  "  echo \"Database directory is writable\"",
  "else",
  "  echo \"Warning: Database directory may not be writable\"",
  "fi",
  "  ",
  "# Count packages in nix-portable store",
  "NIX_STORE_COUNT=$(find ~/.nix-portable/nix/store -mindepth 1 -maxdepth 1 -type d 2>/dev/null | wc -l || echo 0)",
  "if [ $NIX_STORE_COUNT -gt 0 ]; then",
  "  echo -e \"\\033[0;34m[NIX CACHE]\\033[0m Found $NIX_STORE_COUNT packages in nix-portable store\"",
  "fi",
  "  ",
  "# Check if database exists",
  "DB_FOUND=false",
  "if [ -f ~/.nix-portable/nix/var/nix/db/db.sqlite ]; then",
  "  DB_SIZE=$(stat -c%s ~/.nix-portable/nix/var/nix/db/db.sqlite 2>/dev/null || echo 0)",
  "  echo -e \"\\033[0;34m[NIX CACHE]\\033[0m Database found via symlink (size: $DB_SIZE bytes)\"",
  "  DB_FOUND=true",
  "elif [ -f /nix/store/.nix-db/db.sqlite ]; then",
  "  DB_SIZE=$(stat -c%s /nix/store/.nix-db/db.sqlite 2>/dev/null || echo 0)",
  "  echo -e \"\\033[0;34m[NIX CACHE]\\033[0m Database found in shared store (size: $DB_SIZE bytes)\"",
  "  # Ensure symlink directory structure exists",
  "  mkdir -p ~/.nix-portable/nix/var/nix",
  "  rm -rf ~/.nix-portable/nix/var/nix/db 2>/dev/null || true",
  "  ln -sf /nix/store/.nix-db ~/.nix-portable/nix/var/nix/db",
  "  echo \"Database symlink created\"",
  "  DB_FOUND=true",
  "else",
  "  # Check if database exists in any subdirectory of shared store",
  "  DB_CANDIDATE=$(find /nix/store -name \"db.sqlite\" -type f 2>/dev/null | head -1)",
  "  if [ -n \"$DB_CANDIDATE\" ]; then",
  "    DB_SIZE=$(stat -c%s \"$DB_CANDIDATE\" 2>/dev/null || echo 0)",
  "    echo -e \"\\033[0;34m[NIX CACHE]\\033[0m Found database at: $DB_CANDIDATE (size: $DB_SIZE bytes)\"",
  "    # Copy or symlink it to the expected location",
  "    mkdir -p /nix/store/.nix-db",
  "    cp \"$DB_CANDIDATE\" /nix/store/.nix-db/db.sqlite 2>/dev/null || true",
  "    mkdir -p ~/.nix-portable/nix/var/nix",
  "    rm -rf ~/.nix-portable/nix/var/nix/db 2>/dev/null || true",
  "    ln -sf /nix/store/.nix-db ~/.nix-portable/nix/var/nix/db",
  "    echo \"Database copied and symlinked\"",
  "    DB_FOUND=true",
  "  else",
  "    echo \"Database will be created on first run (this is normal for first run)\"",
  "  fi",
  "fi",
  ""
]

/-- The remaining system-dependency lines: `$SYSTEM_DEPS` is read from the environment, never interpolated (line 158). -/
def seg_nix_tail : List String := [
  "echo \"Installing system dependencies: $SYSTEM_DEPS\"",
  "# Convert comma-separated to space-separated",
  "SYSTEM_DEPS=$(echo \"$SYSTEM_DEPS\" | tr \",\" \" \")",
  "",
  "# Check Nix store cache status",
  "if [ -n \"$NP_STORE\" ] && [ -d \"$NP_STORE\" ]; then",
  "  STORE_COUNT=$(find \"$NP_STORE\" -mindepth 1 -maxdepth 1 -type d 2>/dev/null | wc -l)",
  "  echo -e \"\\033[0;34m[NIX CACHE]\\033[0m Store contains $STORE_COUNT packages\"",
  "else",
  "  echo -e \"\\033[0;34m[NIX CACHE]\\033[0m No shared store configured, using local cache\"",
  "fi",
  "",
  "# Build nix-shell command with all system dependencies",
  "# We\x27ll use nix-shell directly when executing Python code - no separate preparation needed",
  "# nix-shell will handle downloading packages if needed (fast if cached)",
  "NIX_PACKAGES=\"\"",
  "for dep in $SYSTEM_DEPS; do",
  "  NIX_PACKAGES=\"$NIX_PACKAGES -p $dep\"",
  "  echo \"System dependency: $dep (will be available via nix-shell)\"",
  "done",
  "export NIX_SHELL_PACKAGES=\"$NIX_PACKAGES\"",
  "echo \"System dependencies configured. Packages will be available when executing Python code.\"",
  "",
  "# Final cache status",
  "if [ -n \"$NP_STORE\" ] && [ -d \"$NP_STORE\" ]; then",
  "  FINAL_COUNT=$(find \"$NP_STORE\" -mindepth 1 -maxdepth 1 -type d 2>/dev/null | wc -l)",
  "  echo -e \"\\033[0;34m[NIX CACHE]\\033[0m Final store count: $FINAL_COUNT packages\"",
  "fi",
  "",
  "echo \x27System dependencies installed successfully\x27",
  ""
]

/-- The unconditional uv installation check (line 193). -/
def seg_uv_install : List String := [
  "# Install uv if not present",
  "if ! command -v uv &> /dev/null; then",
  "  pip install --no-cache-dir uv",
  "fi",
  ""
]

/-- Lines emitted when `use_cache` is truthy: `UV_CACHE_DIR` setup (line 202). -/
def seg_uv_cache : List String := [
  "# Use shared UV cache",
  "export UV_CACHE_DIR=/root/.cache/uv",
  "mkdir -p $UV_CACHE_DIR",
  "echo \"Using UV cache at: $UV_CACHE_DIR\"",
  "# Check cache status",
  "if [ -d \"$UV_CACHE_DIR\" ]; then",
  "  CACHE_SIZE=$(du -sh \"$UV_CACHE_DIR\" 2>/dev/null | cut -f1)",
  "  CACHE_FILES=$(find \"$UV_CACHE_DIR\" -type f 2>/dev/null | wc -l)",
  "  echo -e \"\\033[0;36m[UV CACHE]\\033[0m Cache directory size: $CACHE_SIZE ($CACHE_FILES files)\"",
  "else",
  "  echo -e \"\\033[0;36m[UV CACHE]\\033[0m Cache directory does not exist, will be created\"",
  "fi",
  ""
]

/-- The per-workflow virtual environment lines (line 220). -/
def seg_venv : List String := [
  "# Create isolated virtual environment",
  "VENV_DIR=\"/tmp/venv-\x7b\x7bworkflow.name\x7d\x7d\"",
  "uv venv \"$VENV_DIR\"",
  "",
  "# Activate virtual environment",
  "source \"$VENV_DIR/bin/activate\""
]

/-- Lines emitted when `requirements_file` is truthy: the file content is spliced **verbatim** into the script between the quoted heredoc markers (line 231; the `requirements_file` argument itself is one of the emitted lines). -/
def seg_requirements (requirements_file : String) : List String := [
  "",
  "# Write requirements file",
  "cat > /tmp/requirements.txt << \x27REQ_EOF\x27",
  requirements_file,
  "REQ_EOF",
  "",
  "# Install dependencies from requirements.txt with cache logging",
  "echo \x27Installing from requirements.txt...\x27",
  "# Check cache status before installation",
  "if [ -n \"$UV_CACHE_DIR\" ] && [ -d \"$UV_CACHE_DIR\" ]; then",
  "  echo -e \"\\033[0;36m[UV CACHE]\\033[0m Checking cache for packages in requirements.txt...\"",
  "  while IFS= read -r line || [ -n \"$line\" ]; do",
  "    # Skip comments and empty lines",
  "    [ -z \"$line\" ] || [ \"$\x7bline#\"#\"\x7d\" != \"$line\" ] && continue",
  "    PKG_NAME=$(echo \"$line\" | cut -d\x27=\x27 -f1 | cut -d\x27[\x27 -f1 | xargs)",
  "    if [ -n \"$PKG_NAME\" ] && find \"$UV_CACHE_DIR\" -name \"*$\x7bPKG_NAME\x7d*\" -type f 2>/dev/null | grep -q .; then",
  "      echo -e \"\\033[0;36m[UV CACHE]\\033[0m \\033[0;32m✓\\033[0m $PKG_NAME found in \\033[1;32mLOCAL CACHE\\033[0m\"",
  "    elif [ -n \"$PKG_NAME\" ]; then",
  "      echo -e \"\\033[0;36m[UV CACHE]\\033[0m \\033[0;31m✗\\033[0m $PKG_NAME will be downloaded from \\033[1;31mEXTERNAL\\033[0m (PyPI)\"",
  "    fi",
  "  done < /tmp/requirements.txt",
  "fi",
  "# Install packages and capture output to detect cache usage",
  "INSTALL_OUTPUT=$(uv pip install -r /tmp/requirements.txt 2>&1)",
  "INSTALL_STATUS=$?",
  "# Check if packages were downloaded or from cache",
  "if echo \"$INSTALL_OUTPUT\" | grep -q \"Downloading\"; then",
  "  DOWNLOADED_PKGS=$(echo \"$INSTALL_OUTPUT\" | grep \"Downloading\" | sed \"s/.*Downloading \\([^ ]*\\).*/\\1/\" | tr \"\\n\" \" \")",
  "  echo -e \"\\033[0;36m[UV CACHE]\\033[0m \\033[0;31m✗\\033[0m Downloaded from \\033[1;31mEXTERNAL\\033[0m (PyPI): $DOWNLOADED_PKGS\"",
  "fi",
  "if echo \"$INSTALL_OUTPUT\" | grep -q \"Resolved.*in.*ms\"; then",
  "  RESOLVE_TIME=$(echo \"$INSTALL_OUTPUT\" | grep -oP \x27Resolved.*in \\K[0-9]+ms\x27 | head -1)",
  "  if [ -z \"$DOWNLOADED_PKGS\" ]; then",
  "    echo -e \"\\033[0;36m[UV CACHE]\\033[0m \\033[0;32m✓\\033[0m All packages from \\033[1;32mLOCAL CACHE\\033[0m (resolved in $RESOLVE_TIME)\"",
  "  fi",
  "fi",
  "if [ $INSTALL_STATUS -eq 0 ]; then",
  "  echo \x27Dependencies installed successfully\x27",
  "else",
  "  echo \x27Error installing dependencies\x27",
  "  echo \"$INSTALL_OUTPUT\"",
  "  exit 1",
  "fi"
]

/-- Lines emitted when `requirements_file` is falsy and `dependencies` truthy: packages are read from the `$PYTHON_DEPS` environment variable, never interpolated (line 277). -/
def seg_python_deps : List String := [
  "",
  "# Install Python dependencies with cache logging",
  "echo \x27Installing Python packages: $PYTHON_DEPS\x27",
  "# Check which packages are already cached",
  "for pkg in $(echo \"$PYTHON_DEPS\" | tr \x27,\x27 \x27 \x27); do",
  "  PKG_NAME=$(echo \"$pkg\" | cut -d\x27=\x27 -f1 | cut -d\x27[\x27 -f1)",
  "  if [ -n \"$UV_CACHE_DIR\" ] && find \"$UV_CACHE_DIR\" -name \"*$\x7bPKG_NAME\x7d*\" -type f 2>/dev/null | grep -q .; then",
  "    echo -e \"\\033[0;36m[UV CACHE]\\033[0m \\033[0;32m✓\\033[0m $PKG_NAME found in \\033[1;32mLOCAL CACHE\\033[0m\"",
  "  else",
  "    echo -e \"\\033[0;36m[UV CACHE]\\033[0m \\033[0;31m✗\\033[0m $PKG_NAME will be downloaded from \\033[1;31mEXTERNAL\\033[0m (PyPI)\"",
  "  fi",
  "done",
  "# Install packages and capture output to detect cache usage",
  "INSTALL_OUTPUT=$(echo \"$PYTHON_DEPS\" | tr \x27,\x27 \x27 \x27 | xargs uv pip install 2>&1)",
  "INSTALL_STATUS=$?",
  "# Check if packages were downloaded or from cache",
  "if echo \"$INSTALL_OUTPUT\" | grep -q \"Downloading\"; then",
  "  DOWNLOADED_PKGS=$(echo \"$INSTALL_OUTPUT\" | grep \"Downloading\" | sed \"s/.*Downloading \\([^ ]*\\).*/\\1/\" | tr \"\\n\" \" \")",
  "  echo -e \"\\033[0;36m[UV CACHE]\\033[0m \\033[0;31m✗\\033[0m Downloaded from \\033[1;31mEXTERNAL\\033[0m (PyPI): $DOWNLOADED_PKGS\"",
  "fi",
  "if echo \"$INSTALL_OUTPUT\" | grep -q \"Resolved.*in.*ms\"; then",
  "  RESOLVE_TIME=$(echo \"$INSTALL_OUTPUT\" | grep -oP \"Resolved.*in \\K[0-9]+ms\" | head -1)",
  "  if [ -z \"$DOWNLOADED_PKGS\" ]; then",
  "    echo -e \"\\033[0;36m[UV CACHE]\\033[0m \\033[0;32m✓\\033[0m All packages from \\033[1;32mLOCAL CACHE\\033[0m (resolved in $RESOLVE_TIME)\"",
  "  fi",
  "fi",
  "if [ $INSTALL_STATUS -eq 0 ]; then",
  "  echo \"Python dependencies installed successfully\"",
  "else",
  "  echo \"Error installing dependencies\"",
  "  echo \"$INSTALL_OUTPUT\"",
  "  exit 1",
  "fi"
]

/-- The final execution block: `python -c "$PYTHON_CODE"`, wrapped in nix-shell when `$SYSTEM_DEPS` is set (line 315). -/
def seg_exec : List String := [
  "",
  "# Execute Python code",
  "# If system dependencies are needed, wrap execution in nix-shell",
  "if [ -n \"$SYSTEM_DEPS\" ] && [ -n \"$NIX_SHELL_PACKAGES\" ]; then",
  "  echo \"Executing Python code with system dependencies available via nix-shell...\"",
  "  # Check if packages exist in store before running",
  "  STORE_PACKAGES=$(find /nix/store -mindepth 1 -maxdepth 1 -type d 2>/dev/null | wc -l || echo 0)",
  "  echo -e \"\\033[0;34m[NIX CACHE]\\033[0m Packages in store before execution: $STORE_PACKAGES\"",
  "  ",
  "  # Verify database exists before execution",
  "  DB_EXISTS=false",
  "  if [ -f ~/.nix-portable/nix/var/nix/db/db.sqlite ]; then",
  "    DB_EXISTS=true",
  "    echo -e \"\\033[0;34m[NIX CACHE]\\033[0m Database exists before execution\"",
  "  elif [ -f /nix/store/.nix-db/db.sqlite ]; then",
  "    # Database exists in shared store but symlink might be broken",
  "    echo \"Database found in shared store, ensuring symlink...\"",
  "    mkdir -p ~/.nix-portable/nix/var/nix/db",
  "    rm -f ~/.nix-portable/nix/var/nix/db/db.sqlite 2>/dev/null || true",
  "    ln -sf /nix/store/.nix-db/db.sqlite ~/.nix-portable/nix/var/nix/db/db.sqlite",
  "    DB_EXISTS=true",
  "    echo -e \"\\033[0;34m[NIX CACHE]\\033[0m Database symlink created\"",
  "  fi",
  "  ",
  "  if [ \"$DB_EXISTS\" = \"false\" ]; then",
  "    echo -e \"\\033[0;33m[NIX CACHE]\\033[0m Warning: Database does not exist\"",
  "    ",
  "    # Ensure database directory exists and is writable",
  "    mkdir -p ~/.nix-portable/nix/var/nix/db",
  "    chmod 755 ~/.nix-portable/nix/var/nix/db 2>/dev/null || true",
  "    ",
  "    # Test that we can write to the database directory (via symlink)",
  "    TEST_FILE=~/.nix-portable/nix/var/nix/db/.test-write",
  "    if touch \"$TEST_FILE\" 2>/dev/null && rm -f \"$TEST_FILE\" 2>/dev/null; then",
  "      echo \"Database directory is writable (test write succeeded)\"",
  "    else",
  "      echo \"Warning: Cannot write to database directory - this may cause issues\"",
  "    fi",
  "    ",
  "    if [ $STORE_PACKAGES -gt 0 ]; then",
  "      echo \"Packages exist ($STORE_PACKAGES) but database missing\"",
  "      echo \"nix-portable requires database to recognize packages\"",
  "      echo \"nix-portable will attempt to download packages to create database\"",
  "      echo \"Note: If download fails, check network connectivity and nix-portable configuration\"",
  "    else",
  "      echo \"No packages exist - nix-portable will download and create database\"",
  "    fi",
  "  fi",
  "  ",
  "  # Run nix-shell - it will use cached packages if they exist in the database",
  "  # If database doesn\x27t exist, nix-portable will download packages (which creates database)",
  "  # The database will be created in ~/.nix-portable/nix/var/nix/db/db.sqlite",
  "  # which is symlinked to /nix/store/.nix-db/db.sqlite, so it will be persisted",
  "  echo \"Running nix-shell (this may download packages if database doesn\x27t exist)...\"",
  "  ",
  "  # IMPORTANT: nix-portable requires network access to evaluate packages",
  "  # Even if packages exist on disk, it needs network to evaluate nixpkgs expressions",
  "  # Set NIX_PATH to help nix-portable find nixpkgs",
  "  export NIX_PATH=nixpkgs=https://github.com/NixOS/nixpkgs/archive/nixos-unstable.tar.gz",
  "  ",
  "  # Try to test network connectivity first",
  "  echo \"Testing network connectivity...\"",
  "  if curl -s --max-time 5 https://cache.nixos.org >/dev/null 2>&1; then",
  "    echo \"Network connectivity: OK (can reach cache.nixos.org)\"",
  "  else",
  "    echo \"Warning: Cannot reach cache.nixos.org - network may be blocked\"",
  "  fi",
  "  if curl -s --max-time 5 https://github.com >/dev/null 2>&1; then",
  "    echo \"Network connectivity: OK (can reach github.com)\"",
  "  else",
  "    echo \"Warning: Cannot reach github.com - network may be blocked\"",
  "  fi",
  "  ",
  "  # Try a simple nix-portable command first to see if it works at all",
  "  echo \"Testing nix-portable basic functionality...\"",
  "  set +e",
  "  # Run command with tee to both stream output in real-time AND capture it",
  "  # This ensures logs appear immediately even if command hangs",
  "  TEMP_OUTPUT=$(mktemp)",
  "  # Run with timeout, use tee to stream to both stdout and temp file",
  "  timeout 30 nix-portable nix --version 2>&1 | tee \"$TEMP_OUTPUT\"",
  "  NIX_TEST_EXIT=$\x7bPIPESTATUS[0]\x7d",
  "  NIX_TEST=$(cat \"$TEMP_OUTPUT\" 2>/dev/null || echo \"\")",
  "  rm -f \"$TEMP_OUTPUT\"",
  "  set -e",
  "  if [ $NIX_TEST_EXIT -eq 0 ] && [ -n \"$NIX_TEST\" ]; then",
  "    echo \"nix-portable basic test: OK ($NIX_TEST)\"",
  "  else",
  "    echo \"nix-portable basic test: FAILED\"",
  "    if [ -n \"$NIX_TEST\" ]; then",
  "      echo \"Output: $NIX_TEST\"",
  "    fi",
  "    echo \"Exit code: $NIX_TEST_EXIT\"",
  "  fi",
  "  ",
  "  # Capture full output for debugging",
  "  echo \"Running nix-shell command...\"",
  "  echo \"=== Full nix-shell output ===\"",
  "  set +e",
  "  # Run nix-shell with tee to stream output in real-time AND capture it",
  "  # Use a longer timeout for nix-shell (5 minutes should be enough for most cases)",
  "  TEMP_NIX_OUTPUT=$(mktemp)",
  "  timeout 300 nix-portable nix-shell $NIX_SHELL_PACKAGES --run \x27python -c \"$PYTHON_CODE\"\x27 2>&1 | tee \"$TEMP_NIX_OUTPUT\"",
  "  NIX_EXIT=$\x7bPIPESTATUS[0]\x7d",
  "  NIX_OUTPUT=$(cat \"$TEMP_NIX_OUTPUT\" 2>/dev/null || echo \"\")",
  "  rm -f \"$TEMP_NIX_OUTPUT\"",
  "  set -e",
  "  ",
  "  # Output was already streamed above via tee, but show summary",
  "  echo \"=== end of nix-shell output ===\"",
  "  ",
  "  if [ $NIX_EXIT -ne 0 ]; then",
  "    echo \"nix-shell failed with exit code $NIX_EXIT\"",
  "    ",
  "    # Check for common package name errors",
  "    if echo \"$NIX_OUTPUT\" | grep -q \"undefined variable\"; then",
  "      MISSING_PKG=$(echo \"$NIX_OUTPUT\" | grep -o \"undefined variable \x27[^\x27]*\x27\" | sed \"s/undefined variable \x27//\" | sed \"s/\x27//\" || echo \"unknown\")",
  "      echo \"Error: Package \x27$MISSING_PKG\x27 not found in nixpkgs\"",
  "      echo \"Common fixes:\"",
  "      echo \"  - \x27make\x27 should be \x27gnumake\x27 (or is included with gcc/stdenv)\"",
  "      echo \"  - Check package name at: https://search.nixos.org/packages\"",
  "      echo \"  - Some packages may need different names (e.g., \x27python3\x27 vs \x27python311\x27)\"",
  "    fi",
  "    ",
  "    # Check if the error is specifically about downloading",
  "    if echo \"$NIX_OUTPUT\" | grep -q \"unable to build packages\"; then",
  "      echo \"Error: nix-portable cannot download/build packages\"",
  "      echo \"This usually means:\"",
  "      echo \"  1. Network connectivity issues (check if pods can reach internet)\"",
  "      echo \"  2. nix-portable configuration problems\"",
  "      echo \"  3. Missing database (which we\x27re trying to create)\"",
  "      echo \"\"",
  "      echo \"SOLUTION: Ensure Argo workflow pods have network access to:\"",
  "      echo \"  - cache.nixos.org (for downloading packages)\"",
  "      echo \"  - github.com (for evaluating nixpkgs)\"",
  "      echo \"\"",
  "      echo \"Once network access is available, nix-portable will:\"",
  "      echo \"  1. Download packages (if needed)\"",
  "      echo \"  2. Create database\"",
  "      echo \"  3. Persist database to shared store via symlink\"",
  "      echo \"  4. Use cached packages on subsequent runs\"",
  "    fi",
  "    ",
  "    echo \"Checking if database was created...\"",
  "    if [ -f ~/.nix-portable/nix/var/nix/db/db.sqlite ]; then",
  "      DB_SIZE=$(stat -c%s ~/.nix-portable/nix/var/nix/db/db.sqlite 2>/dev/null || echo 0)",
  "      echo \"Database was created (size: $DB_SIZE bytes) - packages may have been registered\"",
  "      echo \"Even though nix-shell failed, database exists - next run should work\"",
  "    else",
  "      echo \"Database was not created\"",
  "      echo \"This confirms nix-portable cannot download packages (network/configuration issue)\"",
  "    fi",
  "    exit $NIX_EXIT",
  "  fi",
  "  ",
  "  # No syncing needed - PVC is mounted directly to ~/.nix-portable/nix/store",
  "  # Packages and database are written directly to the PVC, automatically shared across containers",
  "  if [ -d ~/.nix-portable/nix/store ]; then",
  "    PACKAGE_COUNT=$(find ~/.nix-portable/nix/store -mindepth 1 -maxdepth 1 -type d 2>/dev/null | wc -l || echo 0)",
  "    echo -e \"\\033[0;34m[NIX CACHE]\\033[0m Packages in shared store: $PACKAGE_COUNT (written directly to PVC, no sync needed)\"",
  "    if [ -f ~/.nix-portable/nix/store/.nix-db/db.sqlite ]; then",
  "      DB_SIZE=$(stat -c%s ~/.nix-portable/nix/store/.nix-db/db.sqlite 2>/dev/null || echo 0)",
  "      echo -e \"\\033[0;34m[NIX CACHE]\\033[0m Database in shared store (size: $DB_SIZE bytes, written directly to PVC)\"",
  "    fi",
  "  fi",
  "else",
  "  python -c \"$PYTHON_CODE\"",
  "fi"
]

/-- Python's `"\n".join(parts)`. -/
def join_lines : List String → String
  | [] => ""
  | [x] => x
  | x :: xs => x ++ "\n" ++ join_lines xs

/-- `build_script_source` (workflow_hera.py lines 20-486) as the list
`script_parts` it accumulates: the fixed segments above, selected by the
truthiness of the three optional dependency inputs and by `use_cache`.  The
values of `dependencies` and `system_dependencies` never enter the list —
the script reads `$PYTHON_DEPS` and `$SYSTEM_DEPS` at run time — while a
truthy `requirements_file`'s content is spliced in verbatim. -/
def build_script_parts (dependencies requirements_file system_dependencies : Option String)
    (use_cache : Bool) : List String :=
  seg_preamble
    ++ (if pyTruthy system_dependencies then
          seg_nix_head ++ (if use_cache then seg_nix_cache else []) ++ seg_nix_tail
        else [])
    ++ seg_uv_install
    ++ (if use_cache then seg_uv_cache else [])
    ++ seg_venv
    ++ (if pyTruthy requirements_file then seg_requirements (requirements_file.getD "")
        else if pyTruthy dependencies then seg_python_deps
        else [])
    ++ seg_exec

/-- The emitted bash script: `"\n".join(script_parts)`. -/
def build_script_source (dependencies requirements_file system_dependencies : Option String)
    (use_cache : Bool) : String :=
  join_lines (build_script_parts dependencies requirements_file system_dependencies use_cache)

/-- The environment variables attached to the workflow template by
`create_workflow_with_hera` (workflow_hera.py lines 593-613): the user code
via `PYTHON_CODE`, the system dependency string via `SYSTEM_DEPS` when
present, then `PYTHON_DEPS` when `dependencies` is truthy, else the literal
marker `DEPENDENCIES=requirements.txt` when a requirements file is given. -/
def create_workflow_env_vars (python_code : String)
    (dependencies requirements_file system_dependencies : Option String) :
    List (String × String) :=
  [("ARGO_WORKFLOW_NAME", "\x7b\x7bworkflow.name\x7d\x7d"), ("PYTHON_CODE", python_code)]
    ++ (if pyTruthy system_dependencies
        then [("SYSTEM_DEPS", system_dependencies.getD "")] else [])
    ++ (if pyTruthy dependencies || pyTruthy requirements_file
          || pyTruthy system_dependencies then
          (if pyTruthy dependencies then [("PYTHON_DEPS", dependencies.getD "")]
           else if pyTruthy requirements_file then [("DEPENDENCIES", "requirements.txt")]
           else [])
        else [])

theorem join_lines_infix {l : List String} {a : String} (h : a ∈ l) :
    a.data <:+: (join_lines l).data := by
  induction l with
  | nil => simp at h
  | cons x xs ih =>
    cases xs with
    | nil =>
      have : a = x := by simpa using h
      subst this
      exact List.infix_refl _
    | cons y ys =>
      rcases List.mem_cons.mp h with rfl | h'
      · rw [show join_lines (a :: y :: ys) = a ++ "\n" ++ join_lines (y :: ys) from rfl,
          String.data_append, String.data_append, List.append_assoc]
        exact (List.prefix_append _ _).isInfix
      · have h1 : a.data <:+: (join_lines (y :: ys)).data := ih h'
        have h2 : (join_lines (y :: ys)).data <:+: (join_lines (x :: y :: ys)).data := by
          rw [show join_lines (x :: y :: ys) = x ++ "\n" ++ join_lines (y :: ys) from rfl,
            String.data_append]
          exact (List.suffix_append _ _).isInfix
        exact h1.trans h2

/-- The requirements-file content is one of the emitted script lines. -/
theorem requirements_mem_parts (deps sys : Option String) (uc : Bool) (r : String)
    (hr : r ≠ "") : r ∈ build_script_parts deps (some r) sys uc := by
  have htr : pyTruthy (some r) = true := by simp [pyTruthy, hr]
  have hmem : r ∈ seg_requirements r := by
    unfold seg_requirements
    exact List.mem_cons_of_mem _ (List.mem_cons_of_mem _ (List.mem_cons_of_mem _
      (List.mem_cons_self _ _)))
  unfold build_script_parts
  rw [htr]
  simp only [if_true, List.mem_append]
  exact Or.inl (Or.inr hmem)

/-- C5, counterexample: the requirements text `"numpy==1.26.4"` is a user
dependency string, yet it appears verbatim as a line of the emitted script
(inside the `REQ_EOF` heredoc, which is not single-quoted context), and the
template's environment variables do not carry it (`DEPENDENCIES` is set to
the literal marker `"requirements.txt"`).  Dependency text therefore does
not reach the installer exclusively through environment variables. -/
theorem C5_requirements_interpolated_cex :
    ("numpy==1.26.4" : String)
        ∈ build_script_parts none (some "numpy==1.26.4") none true ∧
    ("numpy==1.26.4" : String).data
        <:+: (build_script_source none (some "numpy==1.26.4") none true).data ∧
    create_workflow_env_vars "print(1)" none (some "numpy==1.26.4") none
      = [("ARGO_WORKFLOW_NAME", "\x7b\x7bworkflow.name\x7d\x7d"),
         ("PYTHON_CODE", "print(1)"), ("DEPENDENCIES", "requirements.txt")] := by
  have hmem := requirements_mem_parts none none true "numpy==1.26.4" (by decide)
  exact ⟨hmem, join_lines_infix hmem, rfl⟩

/-- C5, amended: the values of `python_deps` and `system_deps` never reach
the script text at all — the emitted script depends only on their
truthiness, and the values are delivered exclusively through the
`PYTHON_DEPS` / `SYSTEM_DEPS` environment variables (a truthy requirements
file, by contrast, is spliced verbatim into the heredoc; see the
counterexample). -/
theorem C5_deps_via_env_amended :
    (∀ (d d' s s' r : Option String) (uc : Bool),
      pyTruthy d = pyTruthy d' → pyTruthy s = pyTruthy s' →
      build_script_source d r s uc = build_script_source d' r s' uc) ∧
    (∀ (code : String) (d r s : Option String), pyTruthy d = true →
      ("PYTHON_DEPS", d.getD "") ∈ create_workflow_env_vars code d r s) ∧
    (∀ (code : String) (d r s : Option String), pyTruthy s = true →
      ("SYSTEM_DEPS", s.getD "") ∈ create_workflow_env_vars code d r s) ∧
    (∀ (code : String) (d r s : Option String),
      pyTruthy d = false → pyTruthy r = true →
      ("DEPENDENCIES", "requirements.txt") ∈ create_workflow_env_vars code d r s) := by
  refine ⟨?_, ?_, ?_, ?_⟩
  · intro d d' s s' r uc hd hs
    unfold build_script_source build_script_parts
    rw [hd, hs]
  · intro code d r s hd
    unfold create_workflow_env_vars
    simp [hd]
  · intro code d r s hs
    unfold create_workflow_env_vars
    simp [hs]
  · intro code d r s hd hr
    unfold create_workflow_env_vars
    simp [hd, hr]

/-- C5, witness: two different dependency strings yield the identical
script, which reads `$PYTHON_DEPS` from the environment instead. -/
theorem C5_deps_via_env_amended_witness :
    build_script_source (some "numpy") none none true
      = build_script_source (some "pandas") none none true ∧
    ("PYTHON_DEPS", "numpy")
      ∈ create_workflow_env_vars "print(1)" (some "numpy") none none := by
  constructor
  · exact C5_deps_via_env_amended.1 (some "numpy") (some "pandas") none none none true
      (by decide) (by decide)
  · exact C5_deps_via_env_amended.2.1 "print(1)" (some "numpy") none none (by decide)

end ArgoCore

namespace ArgoCore

/-- Character-list prefix test; `isPreChars p s` is Python's
`s.startswith(p)` on the underlying character sequences. -/
def isPreChars : List Char → List Char → Bool
  | [], _ => true
  | _ :: _, [] => false
  | a :: as, b :: bs => a = b && isPreChars as bs

/-- Python `path.startswith(pre)`. -/
def str_startswith (path pre : String) : Bool :=
  isPreChars pre.data path.data

theorem isPreChars_trans : ∀ p q r : List Char,
    isPreChars p q = true → isPreChars q r = true → isPreChars p r = true := by
  intro p
  induction p with
  | nil => intro q r _ _; rfl
  | cons a as ih =>
    intro q r hpq hqr
    cases q with
    | nil => simp [isPreChars] at hpq
    | cons b bs =>
      cases r with
      | nil => simp [isPreChars] at hqr
      | cons c cs =>
        simp only [isPreChars, Bool.and_eq_true, decide_eq_true_eq] at hpq hqr ⊢
        exact ⟨hpq.1.trans hqr.1, ih bs cs hpq.2 hqr.2⟩

/-- The path check of `list_pv_files` (main.py 2145-2148):
`path == "/mnt" or path.startswith("/mnt/results")`. -/
def list_pv_files_path_check (path : String) : Bool :=
  path = "/mnt" || str_startswith path "/mnt/results"

/-- The path check of `read_pv_file` (main.py 2267-2269):
`path.startswith("/mnt/results")`. -/
def read_pv_file_path_check (path : String) : Bool :=
  str_startswith path "/mnt/results"

/-- The path check of `preview_pv_file` (main.py 2368-2370): same as
`list_pv_files`. -/
def preview_pv_file_path_check (path : String) : Bool :=
  path = "/mnt" || str_startswith path "/mnt/results"

/-- The path check of `copy_pv_file` (main.py 2520-2522): both paths must
start with `/mnt/results`. -/
def copy_pv_file_path_check (source_path destination_path : String) : Bool :=
  str_startswith source_path "/mnt/results" &&
    str_startswith destination_path "/mnt/results"

/-- Modelled from the spec's words: a path lies under the result mount when
it is the mount point itself or a path inside it. -/
def lies_under_result_mount (path : String) : Bool :=
  path = "/mnt/results" || str_startswith path "/mnt/results/"

theorem lies_under_implies_startswith (p : String)
    (h : lies_under_result_mount p = true) :
    str_startswith p "/mnt/results" = true := by
  unfold lies_under_result_mount at h
  rcases Bool.or_eq_true_iff.mp h with h | h
  · have : p = "/mnt/results" := by simpa using h
    subst this
    decide
  · exact isPreChars_trans "/mnt/results".data "/mnt/results/".data p.data
      (by decide) h

/-- C7, counterexample: the path `"/mnt/resultsx"` does not lie under the
result mount `/mnt/results` (it is a sibling sharing the prefix) and is not
the `/mnt` alias, yet every path check accepts it — the checks are plain
string-prefix tests, not path-containment tests. -/
theorem C7_path_check_cex :
    read_pv_file_path_check "/mnt/resultsx" = true ∧
    list_pv_files_path_check "/mnt/resultsx" = true ∧
    preview_pv_file_path_check "/mnt/resultsx" = true ∧
    copy_pv_file_path_check "/mnt/resultsx" "/mnt/results/ok" = true ∧
    lies_under_result_mount "/mnt/resultsx" = false ∧
    "/mnt/resultsx" ≠ "/mnt" := by
  decide

/-- C7, amended: every path lying under the result mount is accepted by the
checks of list/read/preview/copy; any path whose text does not start with
the string `/mnt/results` (and, for list and preview, is not exactly
`/mnt`) is rejected.  The acceptance test is a string-prefix test, so
sibling paths such as `/mnt/resultsx` are also accepted (see the
counterexample). -/
theorem C7_path_check_amended (p q : String) :
    (lies_under_result_mount p = true →
      read_pv_file_path_check p = true ∧
      list_pv_files_path_check p = true ∧
      preview_pv_file_path_check p = true) ∧
    (lies_under_result_mount p = true → lies_under_result_mount q = true →
      copy_pv_file_path_check p q = true) ∧
    (str_startswith p "/mnt/results" = false → p ≠ "/mnt" →
      read_pv_file_path_check p = false ∧
      list_pv_files_path_check p = false ∧
      preview_pv_file_path_check p = false ∧
      copy_pv_file_path_check p q = false) := by
  refine ⟨?_, ?_, ?_⟩
  · intro h
    have hs := lies_under_implies_startswith p h
    exact ⟨hs, by simp [list_pv_files_path_check, hs],
      by simp [preview_pv_file_path_check, hs]⟩
  · intro hp hq
    have hsp := lies_under_implies_startswith p hp
    have hsq := lies_under_implies_startswith q hq
    simp [copy_pv_file_path_check, hsp, hsq]
  · intro hns hne
    refine ⟨hns, ?_, ?_, ?_⟩
    · simp [list_pv_files_path_check, hns, hne]
    · simp [preview_pv_file_path_check, hns, hne]
    · simp [copy_pv_file_path_check, hns]

/-- C7, witness: a file inside the mount passes read and copy; a path
outside the prefix is rejected everywhere. -/
theorem C7_path_check_amended_witness :
    read_pv_file_path_check "/mnt/results/out.txt" = true ∧
    copy_pv_file_path_check "/mnt/results/a.txt" "/mnt/results/b.txt" = true ∧
    read_pv_file_path_check "/etc/passwd" = false := by
  refine ⟨?_, ?_, ?_⟩
  · exact ((C7_path_check_amended "/mnt/results/out.txt" "/mnt").1 (by decide)).1
  · exact (C7_path_check_amended "/mnt/results/a.txt" "/mnt/results/b.txt").2.1
      (by decide) (by decide)
  · exact ((C7_path_check_amended "/etc/passwd" "/mnt").2.2 (by decide) (by decide)).1

end ArgoCore
